import Mathlib

/-!
Shallow embedding of the pyNastran mass-properties / breakdown core
(`pyNastran/bdf/bdf_methods.py`).  Machine floats are modelled by `ℚ`;
Python exceptions by `Except Err`; Python dicts (insertion-ordered) by
association lists in insertion order.  Per-element geometric services
(`Area()`, `Volume()`, `Length()`, `Mass()`) are external model-layer
services per the spec and are modelled as record fields; an `Option`
field set to `none` models the attribute/method being absent
(Python `AttributeError`).
-/

namespace PyNastran

/-- 3-vectors of rationals, modelling the numpy (3,) float arrays. -/
structure Vec3 where
  x : ℚ
  y : ℚ
  z : ℚ
deriving DecidableEq

def vzero : Vec3 := ⟨0, 0, 0⟩

def vadd (a b : Vec3) : Vec3 := ⟨a.x + b.x, a.y + b.y, a.z + b.z⟩

def vsmul (c : ℚ) (a : Vec3) : Vec3 := ⟨c * a.x, c * a.y, c * a.z⟩

/-- The six independent inertia-tensor components (Ixx, Iyy, Izz, Ixy, Ixz, Iyz). -/
structure I6 where
  xx : ℚ
  yy : ℚ
  zz : ℚ
  xy : ℚ
  xz : ℚ
  yz : ℚ
deriving DecidableEq

/-- Python exceptions raised by the core. `noMassFound` models
`RuntimeError` with message `No elements with mass were found`. -/
inductive Err where
  | keyError : Nat → Err
  | attributeError : Err
  | notImplementedError : Nat → String → Err
  | noMassFound : Err
deriving DecidableEq

/-- A coordinate system: affine transform from a local frame to the
global frame (origin plus three basis vectors). -/
structure Coord where
  origin : Vec3
  e1 : Vec3
  e2 : Vec3
  e3 : Vec3
deriving DecidableEq

/-- A GRID node: defining coordinate system `cp`, local coordinates
`xyz`, and its resolved global position (what `get_position()` returns). -/
structure Node where
  cp : Nat
  xyz : Vec3
  position : Vec3
deriving DecidableEq

/-- An element card.  `etype` is the type tag (CQUAD4, CTETRA, ...);
`pid` the referenced property; the `Option ℚ` fields are the
geometry services `Area()`, `Volume()`, `Length()`, `Mass()` computed
by the model layer (`none` = service not defined for this element:
Python raises `AttributeError`).  `nids` are the element's node ids. -/
structure Element where
  etype : String
  pid : Nat
  area : Option ℚ
  volume : Option ℚ
  length : Option ℚ
  mass : Option ℚ
  nids : List Nat
deriving DecidableEq

/-- A property card: type tag and the scalar attributes used by the
breakdown code (`prop.t`, `prop.nsm`, `prop.Rho()`, `prop.Thickness()`,
`prop.Area()`).  `rho` is `none` when the property has no `Rho`
(Python raises `AttributeError`). -/
structure PropertyCard where
  ptype : String
  t : ℚ
  nsm : ℚ
  rho : Option ℚ
  thickness : ℚ
  area : ℚ
deriving DecidableEq

/-- A concentrated mass card (CONM2 etc.): type tag, `Mass()`,
global position, optional own inertia contribution. -/
structure PointMass where
  mtype : String
  mass : ℚ
  position : Vec3
  inertia : Option I6
deriving DecidableEq

/-- The BDF model snapshot consumed by the core: id-indexed tables in
insertion order, plus the optional PARAM,WTMASS scale. -/
structure Model where
  properties : List (Nat × PropertyCard)
  elements : List (Nat × Element)
  masses : List (Nat × PointMass)
  nodes : List (Nat × Node)
  coords : List (Nat × Coord)
  wtmass : Option ℚ
deriving DecidableEq

instance {ε α : Type} [DecidableEq ε] [DecidableEq α] :
    DecidableEq (Except ε α) := fun x y =>
  match x, y with
  | .ok a, .ok b =>
    if h : a = b then .isTrue (by rw [h])
    else .isFalse (fun hc => h (Except.ok.inj hc))
  | .error a, .error b =>
    if h : a = b then .isTrue (by rw [h])
    else .isFalse (fun hc => h (Except.error.inj hc))
  | .ok _, .error _ => .isFalse (fun hc => Except.noConfusion hc)
  | .error _, .ok _ => .isFalse (fun hc => Except.noConfusion hc)

/-- Association-list lookup, modelling Python `dict[key]` access. -/
def alookup {α : Type} (k : Nat) : List (Nat × α) → Option α
  | [] => none
  | (k2, v) :: rest => if k = k2 then some v else alookup k rest

/-- `self.elements[eid]` (KeyError when absent). -/
def getElem (m : Model) (eid : Nat) : Except Err Element :=
  match alookup eid m.elements with
  | some e => .ok e
  | none => .error (.keyError eid)

/-- `elem.Area()` (AttributeError when the element has no area). -/
def elemArea (e : Element) : Except Err ℚ :=
  match e.area with
  | some a => .ok a
  | none => .error .attributeError

/-- `elem.Volume()`. -/
def elemVolume (e : Element) : Except Err ℚ :=
  match e.volume with
  | some v => .ok v
  | none => .error .attributeError

/-- `elem.Length()`. -/
def elemLength (e : Element) : Except Err ℚ :=
  match e.length with
  | some l => .ok l
  | none => .error .attributeError

/-- `elem.Mass()`. -/
def elemMass (e : Element) : Except Err ℚ :=
  match e.mass with
  | some v => .ok v
  | none => .error .attributeError

/-- `prop.Rho()` (AttributeError when the property has no density). -/
def propRho (p : PropertyCard) : Except Err ℚ :=
  match p.rho with
  | some r => .ok r
  | none => .error .attributeError

/-- The element ids referencing property `pid`, in model element order. -/
def eidsOfPid (m : Model) (pid : Nat) : List Nat :=
  (m.elements.filter (fun p => p.2.pid = pid)).map Prod.fst

def pidsChecked (m : Model) : List Nat → Except Err (List (Nat × List Nat))
  | [] => .ok []
  | pid :: rest =>
    match alookup pid m.properties with
    | none => .error (.keyError pid)
    | some _ => do
      let r ← pidsChecked m rest
      .ok ((pid, eidsOfPid m pid) :: r)

/-- Modelled from the spec: `get_element_ids_dict_with_pids` lives in the
model-attributes layer (`bdf_interface/attributes.py`), which is not part
of the extracted sources.  Per the spec it "collects referencing element
ids" for each requested property (default: all properties) and unknown
requested ids are an error. -/
def get_element_ids_dict_with_pids (m : Model)
    (property_ids : Option (List Nat)) : Except Err (List (Nat × List Nat)) :=
  match property_ids with
  | none => pidsChecked m (m.properties.map Prod.fst)
  | some pids => pidsChecked m pids

/-- The `skip_props` list of `get_area_breakdown`. -/
def skip_props : List String :=
  ["PSOLID", "PLPLANE", "PPLANE", "PELAS",
   "PDAMP", "PBUSH", "PBUSH1D", "PBUSH2D",
   "PELAST", "PDAMPT", "PBUSHT", "PDAMP5",
   "PFAST", "PGAP", "PRAC2D", "PRAC3D", "PCONEAX", "PLSOLID",
   "PCOMPS", "PVISC", "PBCOMP", "PBEND"]

def shellPropTypes : List String := ["PSHELL", "PCOMP", "PSHEAR", "PCOMPG"]

def linePropTypes : List String := ["PBAR", "PBARL", "PBEAM", "PBEAML", "PROD", "PTUBE"]

def solidPropTypes : List String := ["PSOLID", "PCOMPS", "PLSOLID"]

def solidElemTypes : List String := ["CTETRA", "CPENTA", "CHEXA"]

/-- The `no_volume` list of `get_volume_breakdown`. -/
def no_volume : List String :=
  ["PLPLANE", "PPLANE", "PELAS",
   "PDAMP", "PBUSH", "PBUSH1D", "PBUSH2D",
   "PELAST", "PDAMPT", "PBUSHT", "PDAMP5",
   "PFAST", "PGAP", "PRAC2D", "PRAC3D", "PCONEAX",
   "PVISC", "PBCOMP", "PBEND"]

/-- The `properties_to_skip` list of `get_mass_breakdown`. -/
def properties_to_skip : List String :=
  ["PLPLANE", "PPLANE", "PELAS",
   "PDAMP", "PBUSH", "PBUSH1D", "PBUSH2D",
   "PELAST", "PDAMPT", "PBUSHT", "PDAMP5",
   "PFAST", "PGAP", "PRAC2D", "PRAC3D", "PCONEAX",
   "PVISC", "PBCOMP", "PBEND"]

/-- The `areas.append(elem.Area())` collection loop of the shell-like
branches. -/
def shellAreas (m : Model) : List Nat → Except Err (List ℚ)
  | [] => .ok []
  | eid :: rest => do
    let e ← getElem m eid
    let a ← elemArea e
    let r ← shellAreas m rest
    .ok (a :: r)

/-- The line-like branch of `get_area_breakdown`: with `sum_bar_area`
the element areas are appended; without it the accumulator is replaced
by the one-element list `[elem.Area()]` on every iteration. -/
def lineAreas (m : Model) (sum_bar_area : Bool) (acc : List ℚ) :
    List Nat → Except Err (List ℚ)
  | [] => .ok acc
  | eid :: rest => do
    let e ← getElem m eid
    let a ← elemArea e
    lineAreas m sum_bar_area (if sum_bar_area then acc ++ [a] else [a]) rest

/-- The `lengths.append(elem.Length())` collection loop. -/
def elemLengths (m : Model) : List Nat → Except Err (List ℚ)
  | [] => .ok []
  | eid :: rest => do
    let e ← getElem m eid
    let l ← elemLength e
    let r ← elemLengths m rest
    .ok (l :: r)

/-- The `masses.append(elem.Mass())` collection loop (PCOMP/PCOMPG). -/
def elemMasses (m : Model) : List Nat → Except Err (List ℚ)
  | [] => .ok []
  | eid :: rest => do
    let e ← getElem m eid
    let v ← elemMass e
    let r ← elemMasses m rest
    .ok (v :: r)

/-- A skip key `(elem.type, prop.type)` of the `skipped_eid_pid` set. -/
abbrev SKey : Type := String × String

/-- The solid branch of `get_volume_breakdown`: CTETRA/CPENTA/CHEXA
elements contribute `elem.Volume()`; any other element type is skipped
and its `(elem.type, prop.type)` key is logged on first occurrence only
(the `skipped_eid_pid` set, which is in bijection with the emitted log). -/
def solidVolumes (m : Model) (ptype : String) (sk : List SKey) :
    List Nat → Except Err (List ℚ × List SKey)
  | [] => .ok ([], sk)
  | eid :: rest => do
    let e ← getElem m eid
    if e.etype ∈ solidElemTypes then
      let v ← elemVolume e
      let (vs, sk2) ← solidVolumes m ptype sk rest
      .ok (v :: vs, sk2)
    else
      solidVolumes m ptype
        (if (e.etype, ptype) ∈ sk then sk else sk ++ [(e.etype, ptype)]) rest

/-- The solid branch of `get_mass_breakdown`: `rho * elem.Volume()` per
supported element, same skip-and-log-once policy. -/
def solidMasses (m : Model) (rho : ℚ) (ptype : String) (sk : List SKey) :
    List Nat → Except Err (List ℚ × List SKey)
  | [] => .ok ([], sk)
  | eid :: rest => do
    let e ← getElem m eid
    if e.etype ∈ solidElemTypes then
      let v ← elemVolume e
      let (vs, sk2) ← solidMasses m rho ptype sk rest
      .ok (rho * v :: vs, sk2)
    else
      solidMasses m rho ptype
        (if (e.etype, ptype) ∈ sk then sk else sk ++ [(e.etype, ptype)]) rest

/-- The property-type dispatch of `get_area_breakdown` for one property. -/
def areasForProp (m : Model) (pid : Nat) (prop : PropertyCard)
    (eids : List Nat) (sum_bar_area : Bool) : Except Err (List ℚ) :=
  if prop.ptype ∈ shellPropTypes then
    shellAreas m eids
  else if prop.ptype ∈ linePropTypes then
    lineAreas m sum_bar_area [] eids
  else if prop.ptype ∈ skip_props then
    .ok []
  else
    .error (.notImplementedError pid prop.ptype)

/-- The property-type dispatch of `get_volume_breakdown` for one
property, threading the `skipped_eid_pid` set. -/
def volumesForProp (m : Model) (pid : Nat) (prop : PropertyCard)
    (eids : List Nat) (sk : List SKey) : Except Err (List ℚ × List SKey) :=
  if prop.ptype = "PSHELL" then do
    let as ← shellAreas m eids
    .ok (as.map (fun a => a * prop.t), sk)
  else if prop.ptype ∈ (["PCOMP", "PCOMPG"] : List String) then do
    let as ← shellAreas m eids
    .ok (as.map (fun a => a * prop.thickness), sk)
  else if prop.ptype ∈ linePropTypes then do
    let ls ← elemLengths m eids
    .ok (ls.map (fun l => prop.area * l), sk)
  else if prop.ptype ∈ solidPropTypes then
    solidVolumes m prop.ptype sk eids
  else if prop.ptype = "PSHEAR" then do
    let as ← shellAreas m eids
    .ok (as.map (fun a => a * prop.t), sk)
  else if prop.ptype ∈ no_volume then
    .ok ([], sk)
  else
    .error (.notImplementedError pid prop.ptype)

/-- The property-type dispatch of `get_mass_breakdown` for one property. -/
def massesForProp (m : Model) (pid : Nat) (prop : PropertyCard)
    (eids : List Nat) (sk : List SKey) : Except Err (List ℚ × List SKey) :=
  if prop.ptype = "PSHELL" then do
    let rho ← propRho prop
    let as ← shellAreas m eids
    .ok (as.map (fun a => a * (rho * prop.t + prop.nsm)), sk)
  else if prop.ptype ∈ (["PCOMP", "PCOMPG"] : List String) then do
    let ms ← elemMasses m eids
    .ok (ms, sk)
  else if prop.ptype ∈ linePropTypes then do
    let rho ← propRho prop
    let ls ← elemLengths m eids
    .ok (ls.map (fun l => prop.area * (rho * l + prop.nsm)), sk)
  else if prop.ptype ∈ solidPropTypes then do
    let rho ← propRho prop
    solidMasses m rho prop.ptype sk eids
  else if prop.ptype ∈ properties_to_skip then
    .ok ([], sk)
  else if prop.ptype = "PSHEAR" then do
    let rho ← propRho prop
    let as ← shellAreas m eids
    .ok (as.map (fun a => a * (rho * prop.t + prop.nsm)), sk)
  else
    .error (.notImplementedError pid prop.ptype)

/-- The per-property loop of `get_area_breakdown`: entries with a
non-empty `areas` list are written to the output dict, in iteration
order; the rest are omitted. -/
def area_fold (m : Model) (sum_bar_area : Bool) :
    List (Nat × List Nat) → Except Err (List (Nat × ℚ))
  | [] => .ok []
  | (pid, eids) :: rest =>
    match alookup pid m.properties with
    | none => .error (.keyError pid)
    | some prop => do
      let as ← areasForProp m pid prop eids sum_bar_area
      let r ← area_fold m sum_bar_area rest
      .ok (if as.isEmpty then r else (pid, as.sum) :: r)

/-- `get_area_breakdown(property_ids, sum_bar_area)`. -/
def get_area_breakdown (m : Model) (property_ids : Option (List Nat))
    (sum_bar_area : Bool) : Except Err (List (Nat × ℚ)) := do
  let pid_eids ← get_element_ids_dict_with_pids m property_ids
  area_fold m sum_bar_area pid_eids

/-- The per-property loop of `get_volume_breakdown`, threading the
`skipped_eid_pid` set across properties. -/
def volume_fold (m : Model) (sk : List SKey) :
    List (Nat × List Nat) → Except Err (List (Nat × ℚ) × List SKey)
  | [] => .ok ([], sk)
  | (pid, eids) :: rest =>
    match alookup pid m.properties with
    | none => .error (.keyError pid)
    | some prop => do
      let (vs, sk2) ← volumesForProp m pid prop eids sk
      let (r, sk3) ← volume_fold m sk2 rest
      .ok ((if vs.isEmpty then r else (pid, vs.sum) :: r), sk3)

/-- `get_volume_breakdown` with the skip-log (`skipped_eid_pid` in
insertion order) kept as a second component. -/
def volume_breakdown_core (m : Model) (property_ids : Option (List Nat)) :
    Except Err (List (Nat × ℚ) × List SKey) := do
  let pid_eids ← get_element_ids_dict_with_pids m property_ids
  volume_fold m [] pid_eids

/-- `get_volume_breakdown(property_ids)`. -/
def get_volume_breakdown (m : Model) (property_ids : Option (List Nat)) :
    Except Err (List (Nat × ℚ)) := do
  let (vols, _) ← volume_breakdown_core m property_ids
  .ok vols

/-- One step of the `mass_type_to_mass` dict update: insert the type on
first sight, otherwise add to the existing entry. -/
def addMassType (acc : List (String × ℚ)) (ty : String) (v : ℚ) :
    List (String × ℚ) :=
  if acc.any (fun p => p.1 = ty) then
    acc.map (fun p => if p.1 = ty then (p.1, p.2 + v) else p)
  else
    acc ++ [(ty, v)]

/-- The loop over `self.masses` building `mass_type_to_mass`
(independent of the property-id filter). -/
def massTypeMap (l : List (Nat × PointMass)) : List (String × ℚ) :=
  l.foldl (fun acc p => addMassType acc p.2.mtype p.2.mass) []

/-- The per-property loop of `get_mass_breakdown`, threading
`skipped_eid_pid`. -/
def mass_fold (m : Model) (sk : List SKey) :
    List (Nat × List Nat) → Except Err (List (Nat × ℚ) × List SKey)
  | [] => .ok ([], sk)
  | (pid, eids) :: rest =>
    match alookup pid m.properties with
    | none => .error (.keyError pid)
    | some prop => do
      let (ms, sk2) ← massesForProp m pid prop eids sk
      let (r, sk3) ← mass_fold m sk2 rest
      .ok ((if ms.isEmpty then r else (pid, ms.sum) :: r), sk3)

/-- `get_mass_breakdown` before the `stop_if_no_eids` check, with the
skip-log kept. -/
def mass_breakdown_core (m : Model) (property_ids : Option (List Nat)) :
    Except Err (List (Nat × ℚ) × List (String × ℚ) × List SKey) := do
  let pid_eids ← get_element_ids_dict_with_pids m property_ids
  let mt := massTypeMap m.masses
  let (p2m, sk) ← mass_fold m [] pid_eids
  .ok (p2m, mt, sk)

/-- `get_mass_breakdown(property_ids, stop_if_no_eids)`: raises
`No elements with mass were found` when strict and both dicts are empty. -/
def get_mass_breakdown (m : Model) (property_ids : Option (List Nat))
    (stop_if_no_eids : Bool) :
    Except Err (List (Nat × ℚ) × List (String × ℚ)) := do
  let (p2m, mt, _) ← mass_breakdown_core m property_ids
  if stop_if_no_eids && mt.isEmpty && p2m.isEmpty then
    .error .noMassFound
  else
    .ok (p2m, mt)

/-- Modelled from the spec: on-the-fly node-position resolution (the
`mass_properties_no_xref` path; the implementation lives in
`mesh_utils/mass_properties.py`, not among the extracted sources).  Per
the spec, a node's global position is obtained by transforming its
local coordinates through its defining coordinate system. -/
def resolvePosition (m : Model) (n : Node) : Except Err Vec3 :=
  match alookup n.cp m.coords with
  | some c =>
    .ok (vadd c.origin
      (vadd (vsmul n.xyz.x c.e1) (vadd (vsmul n.xyz.y c.e2) (vsmul n.xyz.z c.e3))))
  | none => .error (.keyError n.cp)

/-- Looks up each node id and resolves its position with `posOf`. -/
def nodePositions (m : Model) (posOf : Node → Except Err Vec3) :
    List Nat → Except Err (List Vec3)
  | [] => .ok []
  | nid :: rest =>
    match alookup nid m.nodes with
    | none => .error (.keyError nid)
    | some node => do
      let p ← posOf node
      let r ← nodePositions m posOf rest
      .ok (p :: r)

/-- Modelled from the spec: an element's geometric centroid in the
global frame is the mean of its node positions (geometry recomputed on
demand from current node positions). -/
def elemCentroid (m : Model) (posOf : Node → Except Err Vec3)
    (e : Element) : Except Err Vec3 := do
  let ps ← nodePositions m posOf e.nids
  .ok (vsmul (1 / (ps.length : ℚ)) (ps.foldl vadd vzero))

/-- Running sums of the engine: total mass, first moments about the
global origin, and raw second moments about the global origin. -/
structure Sums where
  m : ℚ
  mx : ℚ
  my : ℚ
  mz : ℚ
  sxx : ℚ
  syy : ℚ
  szz : ℚ
  sxy : ℚ
  sxz : ℚ
  syz : ℚ
deriving DecidableEq

def sumsZero : Sums := ⟨0, 0, 0, 0, 0, 0, 0, 0, 0, 0⟩

/-- Accumulate one lumped mass `mv` at point `p` into the running sums. -/
def addPoint (s : Sums) (mv : ℚ) (p : Vec3) : Sums :=
  ⟨s.m + mv,
   s.mx + mv * p.x, s.my + mv * p.y, s.mz + mv * p.z,
   s.sxx + mv * p.x * p.x, s.syy + mv * p.y * p.y, s.szz + mv * p.z * p.z,
   s.sxy + mv * p.x * p.y, s.sxz + mv * p.x * p.z, s.syz + mv * p.y * p.z⟩

/-- Modelled from the spec: the element accumulation pass of
`_mass_properties` / `_mass_properties_no_xref` — for each element, its
mass (the element's own type/property-specific formula, an external
model-layer service here) is lumped at its geometric centroid. -/
def elemsSums (m : Model) (posOf : Node → Except Err Vec3) (s : Sums) :
    List Element → Except Err Sums
  | [] => .ok s
  | e :: rest => do
    let mv ← elemMass e
    let c ← elemCentroid m posOf e
    elemsSums m posOf (addPoint s mv c) rest

def i6Zero : I6 := ⟨0, 0, 0, 0, 0, 0⟩

def i6Add (a b : I6) : I6 :=
  ⟨a.xx + b.xx, a.yy + b.yy, a.zz + b.zz, a.xy + b.xy, a.xz + b.xz, a.yz + b.yz⟩

/-- Modelled from the spec: the point-mass accumulation pass — each
point mass is lumped at its own position, and its own inertia
contribution (when supplied) is collected separately. -/
def pmSums (s : Sums) (extra : I6) : List PointMass → Sums × I6
  | [] => (s, extra)
  | pm :: rest =>
    pmSums (addPoint s pm.mass pm.position)
      (match pm.inertia with
       | some i => i6Add extra i
       | none => extra) rest

/-- Modelled from the spec: finalization — `cg = Σ(m·x)/M` (zero when
`M = 0`), and the inertia tensor about the reference point `p0` obtained
from the raw origin second moments via the parallel-axis identities
`Ixx(p0) = Σ m ((y − p0y)² + (z − p0z)²)`, `Ixy(p0) = Σ m (x − p0x)(y − p0y)`,
expanded in terms of the origin sums. -/
def finalize (s : Sums) (extra : I6) (p0 : Vec3) : ℚ × Vec3 × I6 :=
  let cg : Vec3 :=
    if s.m = 0 then vzero else ⟨s.mx / s.m, s.my / s.m, s.mz / s.m⟩
  let ayy := s.syy - 2 * p0.y * s.my + s.m * p0.y * p0.y
  let azz := s.szz - 2 * p0.z * s.mz + s.m * p0.z * p0.z
  let axx := s.sxx - 2 * p0.x * s.mx + s.m * p0.x * p0.x
  let ixy := s.sxy - p0.x * s.my - p0.y * s.mx + s.m * p0.x * p0.y
  let ixz := s.sxz - p0.x * s.mz - p0.z * s.mx + s.m * p0.x * p0.z
  let iyz := s.syz - p0.y * s.mz - p0.z * s.my + s.m * p0.y * p0.z
  (s.m, cg,
    i6Add extra ⟨ayy + azz, axx + azz, axx + ayy, ixy, ixz, iyz⟩)

/-- Modelled from the spec: the shared accumulation engine, parameterized
by the node-position service `posOf` (the only point where the resolved
and the no-xref variants differ). -/
def massPropEngine (m : Model) (posOf : Node → Except Err Vec3)
    (elems : List Element) (pms : List PointMass) (p0 : Vec3) :
    Except Err (ℚ × Vec3 × I6) := do
  let s ← elemsSums m posOf sumsZero elems
  let (s2, extra) := pmSums s i6Zero pms
  .ok (finalize s2 extra p0)

/-- Fast path: uses the precomputed resolved positions (`get_position()`). -/
def mass_properties_core (m : Model) (elems : List Element)
    (pms : List PointMass) (p0 : Vec3) : Except Err (ℚ × Vec3 × I6) :=
  massPropEngine m (fun n => .ok n.position) elems pms p0

/-- Slow path: resolves each node's coordinate transform on the fly. -/
def mass_properties_no_xref_core (m : Model) (elems : List Element)
    (pms : List PointMass) (p0 : Vec3) : Except Err (ℚ × Vec3 × I6) :=
  massPropEngine m (resolvePosition m) elems pms p0

/-- Modelled from the spec: `_mass_properties_elements_init` — a missing
selection defaults to every element/mass in the model; explicit ids are
looked up and unknown ids are an error. -/
def resolveIds {α : Type} (table : List (Nat × α)) :
    Option (List Nat) → Except Err (List α)
  | none => .ok (table.map Prod.snd)
  | some ids => go table ids
where
  go (table : List (Nat × α)) : List Nat → Except Err (List α)
    | [] => .ok []
    | i :: rest =>
      match alookup i table with
      | none => .error (.keyError i)
      | some v => do
        let r ← go table rest
        .ok (v :: r)

/-- A reflective symmetry axis. -/
inductive Axis where
  | x
  | y
  | z
deriving DecidableEq

/-- Modelled from the spec: one symmetry-axis application — mass doubles,
the CG coordinate on the axis is forced to exactly zero, diagonal inertia
terms double, cross terms involving the axis vanish and the remaining
cross term doubles. -/
def applyAxis (a : Axis) (r : ℚ × Vec3 × I6) : ℚ × Vec3 × I6 :=
  let (mass, cg, i) := r
  match a with
  | .x => (2 * mass, ⟨0, cg.y, cg.z⟩,
      ⟨2 * i.xx, 2 * i.yy, 2 * i.zz, 0, 0, 2 * i.yz⟩)
  | .y => (2 * mass, ⟨cg.x, 0, cg.z⟩,
      ⟨2 * i.xx, 2 * i.yy, 2 * i.zz, 0, 2 * i.xz, 0⟩)
  | .z => (2 * mass, ⟨cg.x, cg.y, 0⟩,
      ⟨2 * i.xx, 2 * i.yy, 2 * i.zz, 2 * i.xy, 0, 0⟩)

/-- Modelled from the spec: `_apply_mass_symmetry` — sequential
application of the symmetry axes, then the mass-unit scale (default the
model's PARAM,WTMASS when present, else `1`), multiplying mass and
inertia but not the CG. -/
def _apply_mass_symmetry (m : Model) (sym : List Axis) (scale : Option ℚ)
    (r : ℚ × Vec3 × I6) : ℚ × Vec3 × I6 :=
  let (mass, cg, i) := sym.foldl (fun acc a => applyAxis a acc) r
  let s :=
    match scale with
    | some v => v
    | none =>
      match m.wtmass with
      | some w => w
      | none => 1
  (s * mass, cg,
    ⟨s * i.xx, s * i.yy, s * i.zz, s * i.xy, s * i.xz, s * i.yz⟩)

/-- The `reference_point` argument: omitted (`None`), an explicit
3-vector, or a node id. -/
inductive RefPoint where
  | noRef
  | vec : Vec3 → RefPoint
  | node : Nat → RefPoint
deriving DecidableEq

/-- The reference-point resolution prologue shared by `mass_properties`
and `mass_properties_no_xref` (`bdf_methods.py` lines 352-355 / 436-439):
`None` becomes the zero vector, and an integer becomes
`self.nodes[reference_point].get_position()`. -/
def resolveRefPoint (m : Model) : RefPoint → Except Err Vec3
  | .noRef => .ok vzero
  | .vec p => .ok p
  | .node nid =>
    match alookup nid m.nodes with
    | some n => .ok n.position
    | none => .error (.keyError nid)

/-- `mass_properties(element_ids, mass_ids, reference_point, sym_axis,
scale)`: the resolved (fast) variant. -/
def mass_properties (m : Model) (element_ids mass_ids : Option (List Nat))
    (reference_point : RefPoint) (sym_axis : List Axis) (scale : Option ℚ) :
    Except Err (ℚ × Vec3 × I6) := do
  let p0 ← resolveRefPoint m reference_point
  let elems ← resolveIds m.elements element_ids
  let pms ← resolveIds m.masses mass_ids
  let r ← mass_properties_core m elems pms p0
  .ok (_apply_mass_symmetry m sym_axis scale r)

/-- `mass_properties_no_xref(...)`: the on-the-fly variant. -/
def mass_properties_no_xref (m : Model) (element_ids mass_ids : Option (List Nat))
    (reference_point : RefPoint) (sym_axis : List Axis) (scale : Option ℚ) :
    Except Err (ℚ × Vec3 × I6) := do
  let p0 ← resolveRefPoint m reference_point
  let elems ← resolveIds m.elements element_ids
  let pms ← resolveIds m.masses mass_ids
  let r ← mass_properties_no_xref_core m elems pms p0
  .ok (_apply_mass_symmetry m sym_axis scale r)

/-- The spec's shell-like mass formula, written from the spec's words:
"mass = area × (density × thickness + non-structural-mass-per-area)",
summed over the element areas of the property. -/
def specShellMassSum (rho t nsm : ℚ) (areas : List ℚ) : ℚ :=
  (areas.map (fun a => a * (rho * t + nsm))).sum

/-- A model with no properties, elements or masses. -/
def mdlEmpty : Model := ⟨[], [], [], [], [], none⟩

/-- One PSHELL property (t=3, nsm=1, Rho()=2) with one CQUAD4 of Area()=4. -/
def mdlShell : Model :=
  ⟨[(1, ⟨"PSHELL", 3, 1, some 2, 3, 0⟩)],
   [(10, ⟨"CQUAD4", 1, some 4, none, none, none, []⟩)], [], [], [], none⟩

/-- One PCOMP property (Rho()=1, t=1, Thickness()=1, nsm=0) with one
CQUAD4 exposing Area()=2 and Mass()=100. -/
def mdlComp : Model :=
  ⟨[(1, ⟨"PCOMP", 1, 0, some 1, 1, 0⟩)],
   [(10, ⟨"CQUAD4", 1, some 2, none, none, some 100, []⟩)], [], [], [], none⟩

/-- One PROD property (Area()=7, Rho()=2, nsm=1) with two CROD elements
of distinct areas 0 and 5 and lengths 3 and 4. -/
def mdlRod : Model :=
  ⟨[(1, ⟨"PROD", 0, 1, some 2, 0, 7⟩)],
   [(10, ⟨"CROD", 1, some 0, none, some 3, none, []⟩),
    (11, ⟨"CROD", 1, some 5, none, some 4, none, []⟩)], [], [], [], none⟩

/-- One PSOLID (Rho()=2) with a CTETRA of Volume()=6 and two CPYRAM
elements (unsupported solid shape). -/
def mdlSolid : Model :=
  ⟨[(1, ⟨"PSOLID", 0, 0, some 2, 0, 0⟩)],
   [(10, ⟨"CTETRA", 1, none, some 6, none, none, []⟩),
    (11, ⟨"CPYRAM", 1, none, some 9, none, none, []⟩),
    (12, ⟨"CPYRAM", 1, none, some 9, none, none, []⟩)], [], [], [], none⟩

/-- One property of the unclassified type tag PFOO. -/
def mdlBad : Model := ⟨[(1, ⟨"PFOO", 0, 0, none, 0, 0⟩)], [], [], [], [], none⟩

/-- A model whose only massed entity is a CONM2 point mass of Mass()=0. -/
def mdlPM : Model := ⟨[], [], [(5, ⟨"CONM2", 0, vzero, none⟩)], [], [], none⟩

/-- A PSHELL region next to a PELAS (zero-area skip category) region. -/
def mdlMix : Model :=
  ⟨[(1, ⟨"PSHELL", 3, 1, some 2, 3, 0⟩), (2, ⟨"PELAS", 0, 0, none, 0, 0⟩)],
   [(10, ⟨"CQUAD4", 1, some 4, none, none, none, []⟩),
    (11, ⟨"CELAS2", 2, none, none, none, none, []⟩)], [], [], [], none⟩

/-- The identity coordinate system. -/
def coordId : Coord := ⟨⟨0, 0, 0⟩, ⟨1, 0, 0⟩, ⟨0, 1, 0⟩, ⟨0, 0, 1⟩⟩

/-- A resolved model with one node (local = global = (1,2,3)) and one
element of Mass()=10 lumped at that node. -/
def mdlNode : Model :=
  ⟨[], [(1, ⟨"CELAS2", 0, none, none, none, some 10, [7]⟩)], [],
   [(7, ⟨0, ⟨1, 2, 3⟩, ⟨1, 2, 3⟩⟩)], [(0, coordId)], none⟩

lemma alookup_mem {α : Type} {k : Nat} {v : α} :
    ∀ {l : List (Nat × α)}, alookup k l = some v → (k, v) ∈ l := by
  intro l
  induction l with
  | nil => intro h; simp [alookup] at h
  | cons p rest ih =>
    intro h
    cases p with
    | mk k2 v2 =>
      by_cases hk : k = k2
      · subst hk
        simp [alookup] at h
        subst h
        exact List.mem_cons_self _ _
      · simp [alookup, hk] at h
        exact List.mem_cons_of_mem _ (ih h)

/-- C5: on a selection contributing no mass at all (both dictionaries
empty), `get_mass_breakdown` raises the no-mass error in strict mode and
returns two empty mappings otherwise. -/
theorem mass_breakdown_empty_strict_vs_lax
    (m : Model) (pids : Option (List Nat)) (log : List SKey)
    (h : mass_breakdown_core m pids = .ok ([], [], log)) :
    get_mass_breakdown m pids true = .error Err.noMassFound
    ∧ get_mass_breakdown m pids false = .ok ([], []) := by
  constructor <;> simp [get_mass_breakdown, h, Bind.bind, Except.bind]

/-- Witness for C5 at the empty model. -/
theorem mass_breakdown_empty_strict_vs_lax_witness :
    mass_breakdown_core mdlEmpty none = .ok ([], [], [])
    ∧ get_mass_breakdown mdlEmpty none true = .error Err.noMassFound
    ∧ get_mass_breakdown mdlEmpty none false = .ok ([], []) :=
  ⟨by decide,
   (mass_breakdown_empty_strict_vs_lax mdlEmpty none [] (by decide)).1,
   (mass_breakdown_empty_strict_vs_lax mdlEmpty none [] (by decide)).2⟩

/-- C8: a node-id reference point behaves exactly like passing that
node's resolved global position, and an omitted reference point behaves
like the zero vector. -/
theorem mass_properties_reference_point_resolution :
    (∀ (m : Model) (n : Nat) (node : Node) (eids mids : Option (List Nat))
       (sym : List Axis) (scale : Option ℚ),
       alookup n m.nodes = some node →
       mass_properties m eids mids (RefPoint.node n) sym scale
         = mass_properties m eids mids (RefPoint.vec node.position) sym scale)
    ∧ (∀ (m : Model) (eids mids : Option (List Nat))
       (sym : List Axis) (scale : Option ℚ),
       mass_properties m eids mids RefPoint.noRef sym scale
         = mass_properties m eids mids (RefPoint.vec vzero) sym scale) := by
  constructor
  · intro m n node eids mids sym scale h
    simp [mass_properties, resolveRefPoint, h]
  · intro m eids mids sym scale
    simp [mass_properties, resolveRefPoint]

/-- Witness for C8 on a one-node model. -/
theorem mass_properties_reference_point_resolution_witness :
    alookup 7 mdlNode.nodes = some ⟨0, ⟨1, 2, 3⟩, ⟨1, 2, 3⟩⟩
    ∧ mass_properties mdlNode none none (RefPoint.node 7) [] none
        = mass_properties mdlNode none none (RefPoint.vec ⟨1, 2, 3⟩) [] none
    ∧ mass_properties mdlNode none none RefPoint.noRef [] none
        = mass_properties mdlNode none none (RefPoint.vec vzero) [] none :=
  ⟨by decide,
   mass_properties_reference_point_resolution.1 mdlNode 7 ⟨0, ⟨1, 2, 3⟩, ⟨1, 2, 3⟩⟩
     none none [] none (by decide),
   mass_properties_reference_point_resolution.2 mdlNode none none [] none⟩

lemma no_volume_sub_skip : ∀ ty ∈ no_volume, ty ∈ skip_props := by decide

lemma properties_to_skip_sub_skip : ∀ ty ∈ properties_to_skip, ty ∈ skip_props := by
  decide

lemma solid_sub_skip : ∀ ty ∈ solidPropTypes, ty ∈ skip_props := by decide

lemma shell_mem_facts :
    "PSHELL" ∈ shellPropTypes ∧ "PSHEAR" ∈ shellPropTypes
    ∧ "PCOMP" ∈ shellPropTypes ∧ "PCOMPG" ∈ shellPropTypes := by decide

/-- C3: a property whose type tag is in none of the classification
lists makes all three breakdowns fail with the unclassified-type error
naming that property (never a silent zero). -/
theorem breakdown_unclassified_type_errors
    (m : Model) (pid : Nat) (prop : PropertyCard) (sb flag : Bool)
    (hp : alookup pid m.properties = some prop)
    (h1 : prop.ptype ∉ shellPropTypes)
    (h2 : prop.ptype ∉ linePropTypes)
    (h3 : prop.ptype ∉ skip_props) :
    get_area_breakdown m (some [pid]) sb
      = .error (.notImplementedError pid prop.ptype)
    ∧ get_volume_breakdown m (some [pid])
      = .error (.notImplementedError pid prop.ptype)
    ∧ get_mass_breakdown m (some [pid]) flag
      = .error (.notImplementedError pid prop.ptype) := by
  have hshell : prop.ptype ≠ "PSHELL" := fun h => h1 (h ▸ shell_mem_facts.1)
  have hshear : prop.ptype ≠ "PSHEAR" := fun h => h1 (h ▸ shell_mem_facts.2.1)
  have hcomp : prop.ptype ∉ (["PCOMP", "PCOMPG"] : List String) := by
    intro h
    simp only [List.mem_cons, List.mem_singleton, List.not_mem_nil, or_false] at h
    rcases h with h | h
    · exact h1 (h ▸ shell_mem_facts.2.2.1)
    · exact h1 (h ▸ shell_mem_facts.2.2.2)
  have hsolid : prop.ptype ∉ solidPropTypes := fun h => h3 (solid_sub_skip _ h)
  have hnovol : prop.ptype ∉ no_volume := fun h => h3 (no_volume_sub_skip _ h)
  have hpts : prop.ptype ∉ properties_to_skip :=
    fun h => h3 (properties_to_skip_sub_skip _ h)
  refine ⟨?_, ?_, ?_⟩
  · simp [get_area_breakdown, get_element_ids_dict_with_pids, pidsChecked, hp,
      Bind.bind, Except.bind, area_fold, areasForProp, h1, h2, h3]
  · simp [get_volume_breakdown, volume_breakdown_core,
      get_element_ids_dict_with_pids, pidsChecked, hp,
      Bind.bind, Except.bind, volume_fold, volumesForProp,
      hshell, hcomp, h2, hsolid, hshear, hnovol]
  · simp [get_mass_breakdown, mass_breakdown_core,
      get_element_ids_dict_with_pids, pidsChecked, hp,
      Bind.bind, Except.bind, mass_fold, massesForProp,
      hshell, hcomp, h2, hsolid, hshear, hpts]

/-- Witness for C3 on a model with an unclassified PFOO property. -/
theorem breakdown_unclassified_type_errors_witness :
    (alookup 1 mdlBad.properties = some ⟨"PFOO", 0, 0, none, 0, 0⟩
      ∧ "PFOO" ∉ shellPropTypes ∧ "PFOO" ∉ linePropTypes ∧ "PFOO" ∉ skip_props)
    ∧ get_area_breakdown mdlBad (some [1]) true
        = .error (.notImplementedError 1 "PFOO")
    ∧ get_volume_breakdown mdlBad (some [1])
        = .error (.notImplementedError 1 "PFOO")
    ∧ get_mass_breakdown mdlBad (some [1]) true
        = .error (.notImplementedError 1 "PFOO") :=
  ⟨⟨by decide, by decide, by decide, by decide⟩,
   (breakdown_unclassified_type_errors mdlBad 1 ⟨"PFOO", 0, 0, none, 0, 0⟩ true true
     (by decide) (by decide) (by decide) (by decide)).1,
   (breakdown_unclassified_type_errors mdlBad 1 ⟨"PFOO", 0, 0, none, 0, 0⟩ true true
     (by decide) (by decide) (by decide) (by decide)).2.1,
   (breakdown_unclassified_type_errors mdlBad 1 ⟨"PFOO", 0, 0, none, 0, 0⟩ true true
     (by decide) (by decide) (by decide) (by decide)).2.2⟩

lemma lineAreas_false_empty (m : Model) :
    ∀ (eids : List Nat) (acc : List ℚ), shellAreas m eids = .ok [] →
      lineAreas m false acc eids = .ok acc := by
  intro eids
  induction eids with
  | nil =>
    intro acc _
    simp [lineAreas]
  | cons eid rest _ =>
    intro acc h
    cases hge : getElem m eid with
    | error e => simp [shellAreas, Bind.bind, Except.bind, hge] at h
    | ok e =>
      cases hea : elemArea e with
      | error e2 => simp [shellAreas, Bind.bind, Except.bind, hge, hea] at h
      | ok a =>
        cases hrest : shellAreas m rest with
        | error e3 =>
          simp [shellAreas, Bind.bind, Except.bind, hge, hea, hrest] at h
        | ok r =>
          simp [shellAreas, Bind.bind, Except.bind, hge, hea, hrest] at h

lemma lineAreas_false_last (m : Model) :
    ∀ (eids : List Nat) (acc as : List ℚ) (a : ℚ),
      shellAreas m eids = .ok as → as.getLast? = some a →
      lineAreas m false acc eids = .ok [a] := by
  intro eids
  induction eids with
  | nil =>
    intro acc as a h hl
    simp only [shellAreas] at h
    cases h
    simp at hl
  | cons eid rest ih =>
    intro acc as a h hl
    cases hge : getElem m eid with
    | error e => simp [shellAreas, Bind.bind, Except.bind, hge] at h
    | ok e =>
      cases hea : elemArea e with
      | error e2 => simp [shellAreas, Bind.bind, Except.bind, hge, hea] at h
      | ok a0 =>
        cases hrest : shellAreas m rest with
        | error e3 =>
          simp [shellAreas, Bind.bind, Except.bind, hge, hea, hrest] at h
        | ok r =>
          simp only [shellAreas, Bind.bind, Except.bind, hge, hea, hrest] at h
          injection h with h2
          subst h2
          have hstep : lineAreas m false acc (eid :: rest)
              = lineAreas m false [a0] rest := by
            simp [lineAreas, Bind.bind, Except.bind, hge, hea]
          rw [hstep]
          cases r with
          | nil =>
            simp at hl
            subst hl
            exact lineAreas_false_empty m rest [a0] hrest
          | cons b rs =>
            rw [List.getLast?_cons_cons] at hl
            exact ih [a0] (b :: rs) a hrest hl

lemma line_not_shell : ∀ ty ∈ linePropTypes, ty ∉ shellPropTypes := by decide

/-- C10 (amended): with `sum_bar_area=False` the reported area of a
line-like property is the Area() of the last referencing element
iterated, the earlier areas being discarded; it differs from the
per-element sum exactly when the earlier elements' areas do not sum to
zero. -/
theorem area_breakdown_last_area
    (m : Model) (pid : Nat) (prop : PropertyCard) (as : List ℚ) (a : ℚ)
    (hp : alookup pid m.properties = some prop)
    (ht : prop.ptype ∈ linePropTypes)
    (has : shellAreas m (eidsOfPid m pid) = .ok as)
    (hl : as.getLast? = some a) :
    get_area_breakdown m (some [pid]) false = .ok [(pid, a)]
    ∧ (a ≠ as.sum ↔ as.dropLast.sum ≠ 0) := by
  have hshell := line_not_shell _ ht
  constructor
  · have hline := lineAreas_false_last m (eidsOfPid m pid) [] as a has hl
    simp [get_area_breakdown, get_element_ids_dict_with_pids, pidsChecked, hp,
      Bind.bind, Except.bind, area_fold, areasForProp, hshell, ht, hline]
  · have hsum : as.sum = as.dropLast.sum + a := by
      conv =>
        lhs
        rw [← List.dropLast_append_getLast? a hl]
      simp
    rw [hsum]
    constructor
    · intro h h0
      rw [h0] at h
      simp at h
    · intro h0 h
      apply h0
      linarith

/-- Counterexample to C10 as stated: a PROD region with two elements of
distinct areas 0 and 5; the `sum_bar_area=False` result (the last area,
5) nevertheless equals the per-element sum (0 + 5 = 5, the
`sum_bar_area=True` result), refuting "it is not the per-element sum
whenever the property has more than one element with distinct areas". -/
theorem area_breakdown_last_area_counterexample :
    mdlRod.elements.map (fun p => p.2.area) = [some 0, some 5]
    ∧ get_area_breakdown mdlRod (some [1]) false = .ok [(1, 5)]
    ∧ get_area_breakdown mdlRod (some [1]) true = .ok [(1, 5)]
    ∧ ((0 : ℚ) ≠ 5) := by
  refine ⟨by decide, ?_, ?_, by decide⟩ <;>
    simp [get_area_breakdown, get_element_ids_dict_with_pids, pidsChecked,
      mdlRod, alookup, eidsOfPid, area_fold, areasForProp, lineAreas, shellAreas,
      getElem, elemArea, Bind.bind, Except.bind, linePropTypes, shellPropTypes,
      skip_props]

/-- Witness for the amended C10 on the same two-element PROD region. -/
theorem area_breakdown_last_area_witness :
    (alookup 1 mdlRod.properties = some ⟨"PROD", 0, 1, some 2, 0, 7⟩
      ∧ shellAreas mdlRod (eidsOfPid mdlRod 1) = .ok [0, 5]
      ∧ ([0, 5] : List ℚ).getLast? = some 5)
    ∧ get_area_breakdown mdlRod (some [1]) false = .ok [(1, 5)]
    ∧ ((5 : ℚ) ≠ ([0, 5] : List ℚ).sum ↔ ([0, 5] : List ℚ).dropLast.sum ≠ 0) :=
  ⟨⟨by decide, by decide, by decide⟩,
   (area_breakdown_last_area mdlRod 1 ⟨"PROD", 0, 1, some 2, 0, 7⟩ [0, 5] 5
     (by decide) (by decide) (by decide) (by decide)).1,
   (area_breakdown_last_area mdlRod 1 ⟨"PROD", 0, 1, some 2, 0, 7⟩ [0, 5] 5
     (by decide) (by decide) (by decide) (by decide)).2⟩

/-- C1 (amended): for PSHELL and PSHEAR regions the reported mass is the
spec's shell formula summed over the element areas; for PCOMP and PCOMPG
regions the reported mass is the sum of the elements' own Mass() values
(the composite mass service), not the single-density shell formula. -/
theorem mass_breakdown_shell_like
    (m : Model) (pid : Nat) (prop : PropertyCard) (flag : Bool)
    (hp : alookup pid m.properties = some prop) :
    (∀ (as : List ℚ) (r : ℚ),
      (prop.ptype = "PSHELL" ∨ prop.ptype = "PSHEAR") →
      propRho prop = .ok r →
      shellAreas m (eidsOfPid m pid) = .ok as → as ≠ [] →
      get_mass_breakdown m (some [pid]) flag
        = .ok ([(pid, specShellMassSum r prop.t prop.nsm as)], massTypeMap m.masses))
    ∧ (∀ ms : List ℚ,
      (prop.ptype = "PCOMP" ∨ prop.ptype = "PCOMPG") →
      elemMasses m (eidsOfPid m pid) = .ok ms → ms ≠ [] →
      get_mass_breakdown m (some [pid]) flag
        = .ok ([(pid, ms.sum)], massTypeMap m.masses)) := by
  constructor
  · intro as r htype hr has hne
    rcases htype with h | h <;>
      simp [get_mass_breakdown, mass_breakdown_core, get_element_ids_dict_with_pids,
        pidsChecked, hp, mass_fold, massesForProp, h, hr, has, hne,
        specShellMassSum, Bind.bind, Except.bind, linePropTypes, solidPropTypes,
        properties_to_skip]
  · intro ms htype hms hne
    rcases htype with h | h <;>
      simp [get_mass_breakdown, mass_breakdown_core, get_element_ids_dict_with_pids,
        pidsChecked, hp, mass_fold, massesForProp, h, hms, hne,
        Bind.bind, Except.bind, linePropTypes, solidPropTypes, properties_to_skip]

/-- Counterexample to C1 as stated: a PCOMP region (Rho()=1, thickness 1,
nsm 0) whose single element exposes Area()=2 and Mass()=100.  The
reported mass is the element's Mass() (100), not the spec shell formula
value 2 = 2 × (1 × 1 + 0). -/
theorem mass_breakdown_shell_like_counterexample :
    get_mass_breakdown mdlComp (some [1]) true = .ok ([(1, 100)], [])
    ∧ specShellMassSum 1 1 0 [2] = 2
    ∧ ((100 : ℚ) ≠ 2) := by
  refine ⟨?_, ?_, by decide⟩ <;>
    simp [get_mass_breakdown, mass_breakdown_core, get_element_ids_dict_with_pids,
      pidsChecked, mdlComp, alookup, eidsOfPid, massTypeMap, mass_fold,
      massesForProp, elemMasses, getElem, elemMass, Bind.bind, Except.bind,
      linePropTypes, solidPropTypes, properties_to_skip, specShellMassSum]

/-- Witness for the amended C1 on a PSHELL region and the PCOMP region. -/
theorem mass_breakdown_shell_like_witness :
    (alookup 1 mdlShell.properties = some ⟨"PSHELL", 3, 1, some 2, 3, 0⟩
      ∧ propRho ⟨"PSHELL", 3, 1, some 2, 3, 0⟩ = .ok 2
      ∧ shellAreas mdlShell (eidsOfPid mdlShell 1) = .ok [4])
    ∧ get_mass_breakdown mdlShell (some [1]) true
        = .ok ([(1, specShellMassSum 2 3 1 [4])], massTypeMap mdlShell.masses)
    ∧ get_mass_breakdown mdlComp (some [1]) true
        = .ok ([(1, ([100] : List ℚ).sum)], massTypeMap mdlComp.masses) :=
  ⟨⟨by decide, by decide, by decide⟩,
   (mass_breakdown_shell_like mdlShell 1 ⟨"PSHELL", 3, 1, some 2, 3, 0⟩ true
     (by decide)).1 [4] 2 (Or.inl rfl) (by decide) (by decide) (by decide),
   (mass_breakdown_shell_like mdlComp 1 ⟨"PCOMP", 1, 0, some 1, 1, 0⟩ true
     (by decide)).2 [100] (Or.inl rfl) (by decide) (by decide)⟩

lemma sum_map_mul (a : ℚ) (ls : List ℚ) :
    (ls.map (fun l => a * l)).sum = a * ls.sum := by
  induction ls with
  | nil => simp
  | cons x xs ih => simp [ih, mul_add]

/-- C2: for a line-like property region, the reported volume is the
property cross-section area times the sum of the element lengths, and
the reported mass is the sum over elements of
`prop.Area() × (Rho() × Length() + nsm)`. -/
theorem line_breakdown_volume_mass
    (m : Model) (pid : Nat) (prop : PropertyCard) (flag : Bool)
    (ls : List ℚ) (r : ℚ)
    (hp : alookup pid m.properties = some prop)
    (ht : prop.ptype ∈ linePropTypes)
    (hl : elemLengths m (eidsOfPid m pid) = .ok ls)
    (hne : ls ≠ [])
    (hr : propRho prop = .ok r) :
    get_volume_breakdown m (some [pid]) = .ok [(pid, prop.area * ls.sum)]
    ∧ get_mass_breakdown m (some [pid]) flag
        = .ok ([(pid, (ls.map (fun l => prop.area * (r * l + prop.nsm))).sum)],
               massTypeMap m.masses) := by
  simp only [linePropTypes, List.mem_cons, List.not_mem_nil, or_false,
    List.mem_singleton] at ht
  constructor
  · rcases ht with h | h | h | h | h | h <;>
      simp [get_volume_breakdown, volume_breakdown_core,
        get_element_ids_dict_with_pids, pidsChecked, hp, volume_fold,
        volumesForProp, h, hl, hne, sum_map_mul, Bind.bind, Except.bind,
        linePropTypes, solidPropTypes, no_volume]
  · rcases ht with h | h | h | h | h | h <;>
      simp [get_mass_breakdown, mass_breakdown_core,
        get_element_ids_dict_with_pids, pidsChecked, hp, mass_fold,
        massesForProp, h, hl, hne, hr, Bind.bind, Except.bind,
        linePropTypes, solidPropTypes, properties_to_skip]

/-- Witness for C2 on a two-element PROD region (lengths 3 and 4,
Area()=7, Rho()=2, nsm=1). -/
theorem line_breakdown_volume_mass_witness :
    (alookup 1 mdlRod.properties = some ⟨"PROD", 0, 1, some 2, 0, 7⟩
      ∧ elemLengths mdlRod (eidsOfPid mdlRod 1) = .ok [3, 4]
      ∧ propRho ⟨"PROD", 0, 1, some 2, 0, 7⟩ = .ok 2)
    ∧ get_volume_breakdown mdlRod (some [1]) = .ok [(1, 7 * ([3, 4] : List ℚ).sum)]
    ∧ get_mass_breakdown mdlRod (some [1]) true
        = .ok ([(1, (([3, 4] : List ℚ).map (fun l => 7 * (2 * l + 1))).sum)],
               massTypeMap mdlRod.masses) :=
  ⟨⟨by decide, by decide, by decide⟩,
   (line_breakdown_volume_mass mdlRod 1 ⟨"PROD", 0, 1, some 2, 0, 7⟩ true [3, 4] 2
     (by decide) (by decide) (by decide) (by decide) (by decide)).1,
   (line_breakdown_volume_mass mdlRod 1 ⟨"PROD", 0, 1, some 2, 0, 7⟩ true [3, 4] 2
     (by decide) (by decide) (by decide) (by decide) (by decide)).2⟩

lemma bind_not_noMass {α β : Type} {x : Except Err α} {f : α → Except Err β}
    (hx : x ≠ .error .noMassFound) (hf : ∀ a, f a ≠ .error .noMassFound) :
    x.bind f ≠ .error .noMassFound := by
  cases x with
  | error e => simpa [Except.bind] using hx
  | ok a => simpa [Except.bind] using hf a

lemma getElem_not_noMass (m : Model) (eid : Nat) :
    getElem m eid ≠ .error .noMassFound := by
  cases h : alookup eid m.elements <;> simp [getElem, h]

lemma elemArea_not_noMass (e : Element) : elemArea e ≠ .error .noMassFound := by
  cases h : e.area <;> simp [elemArea, h]

lemma elemVolume_not_noMass (e : Element) : elemVolume e ≠ .error .noMassFound := by
  cases h : e.volume <;> simp [elemVolume, h]

lemma elemLength_not_noMass (e : Element) : elemLength e ≠ .error .noMassFound := by
  cases h : e.length <;> simp [elemLength, h]

lemma elemMass_not_noMass (e : Element) : elemMass e ≠ .error .noMassFound := by
  cases h : e.mass <;> simp [elemMass, h]

lemma propRho_not_noMass (p : PropertyCard) : propRho p ≠ .error .noMassFound := by
  cases h : p.rho <;> simp [propRho, h]

lemma shellAreas_not_noMass (m : Model) :
    ∀ l, shellAreas m l ≠ .error .noMassFound := by
  intro l
  induction l with
  | nil => simp [shellAreas]
  | cons eid rest ih =>
    show Except.bind (getElem m eid) _ ≠ _
    exact bind_not_noMass (getElem_not_noMass m eid) fun e =>
      bind_not_noMass (elemArea_not_noMass e) fun a =>
        bind_not_noMass ih fun r => by simp

lemma elemLengths_not_noMass (m : Model) :
    ∀ l, elemLengths m l ≠ .error .noMassFound := by
  intro l
  induction l with
  | nil => simp [elemLengths]
  | cons eid rest ih =>
    show Except.bind (getElem m eid) _ ≠ _
    exact bind_not_noMass (getElem_not_noMass m eid) fun e =>
      bind_not_noMass (elemLength_not_noMass e) fun a =>
        bind_not_noMass ih fun r => by simp

lemma elemMasses_not_noMass (m : Model) :
    ∀ l, elemMasses m l ≠ .error .noMassFound := by
  intro l
  induction l with
  | nil => simp [elemMasses]
  | cons eid rest ih =>
    show Except.bind (getElem m eid) _ ≠ _
    exact bind_not_noMass (getElem_not_noMass m eid) fun e =>
      bind_not_noMass (elemMass_not_noMass e) fun a =>
        bind_not_noMass ih fun r => by simp

lemma solidMasses_not_noMass (m : Model) (rho : ℚ) (pt : String) :
    ∀ (l : List Nat) (sk : List SKey),
      solidMasses m rho pt sk l ≠ .error .noMassFound := by
  intro l
  induction l with
  | nil => intro sk; simp [solidMasses]
  | cons eid rest ih =>
    intro sk
    show Except.bind (getElem m eid) _ ≠ _
    refine bind_not_noMass (getElem_not_noMass m eid) fun e => ?_
    by_cases hty : e.etype ∈ solidElemTypes
    · simp only [hty, if_true]
      exact bind_not_noMass (elemVolume_not_noMass e) fun v =>
        bind_not_noMass (ih sk) fun p => by
          rcases p with ⟨vs, sk2⟩
          simp
    · simp only [hty, if_false]
      exact ih _

lemma massesForProp_not_noMass (m : Model) (pid : Nat) (prop : PropertyCard)
    (eids : List Nat) (sk : List SKey) :
    massesForProp m pid prop eids sk ≠ .error .noMassFound := by
  unfold massesForProp
  split
  · exact bind_not_noMass (propRho_not_noMass prop) fun r =>
      bind_not_noMass (shellAreas_not_noMass m eids) fun as => by simp
  · split
    · exact bind_not_noMass (elemMasses_not_noMass m eids) fun ms => by simp
    · split
      · exact bind_not_noMass (propRho_not_noMass prop) fun r =>
          bind_not_noMass (elemLengths_not_noMass m eids) fun ls => by simp
      · split
        · exact bind_not_noMass (propRho_not_noMass prop) fun r =>
            solidMasses_not_noMass m r prop.ptype eids sk
        · split
          · simp
          · split
            · exact bind_not_noMass (propRho_not_noMass prop) fun r =>
                bind_not_noMass (shellAreas_not_noMass m eids) fun as => by simp
            · simp

lemma mass_fold_not_noMass (m : Model) :
    ∀ (l : List (Nat × List Nat)) (sk : List SKey),
      mass_fold m sk l ≠ .error .noMassFound := by
  intro l
  induction l with
  | nil => intro sk; simp [mass_fold]
  | cons pe rest ih =>
    intro sk
    rcases pe with ⟨pid, eids⟩
    show (match alookup pid m.properties with
      | none => Except.error (Err.keyError pid)
      | some prop => _) ≠ _
    cases hp : alookup pid m.properties with
    | none => simp
    | some prop =>
      simp only
      exact bind_not_noMass (massesForProp_not_noMass m pid prop eids sk) fun p => by
        rcases p with ⟨ms, sk2⟩
        exact bind_not_noMass (ih sk2) fun q => by
          rcases q with ⟨r, sk3⟩
          simp

lemma pidsChecked_not_noMass (m : Model) :
    ∀ l, pidsChecked m l ≠ .error .noMassFound := by
  intro l
  induction l with
  | nil => simp [pidsChecked]
  | cons pid rest ih =>
    show (match alookup pid m.properties with
      | none => Except.error (Err.keyError pid)
      | some _ => _) ≠ _
    cases hp : alookup pid m.properties with
    | none => simp
    | some prop =>
      simp only
      exact bind_not_noMass ih fun r => by simp

lemma mass_breakdown_core_not_noMass (m : Model) (pids : Option (List Nat)) :
    mass_breakdown_core m pids ≠ .error .noMassFound := by
  unfold mass_breakdown_core
  refine bind_not_noMass ?_ fun pe => ?_
  · unfold get_element_ids_dict_with_pids
    cases pids <;> exact pidsChecked_not_noMass m _
  · exact bind_not_noMass (mass_fold_not_noMass m pe []) fun p => by
      rcases p with ⟨p2m, sk⟩
      simp

lemma mass_breakdown_core_mt (m : Model) (pids : Option (List Nat))
    (p2m : List (Nat × ℚ)) (mt : List (String × ℚ)) (sk : List SKey)
    (h : mass_breakdown_core m pids = .ok (p2m, mt, sk)) :
    mt = massTypeMap m.masses := by
  unfold mass_breakdown_core at h
  cases hpe : get_element_ids_dict_with_pids m pids with
  | error e => rw [hpe] at h; simp [Bind.bind, Except.bind] at h
  | ok pe =>
    rw [hpe] at h
    simp only [Bind.bind, Except.bind] at h
    cases hmf : mass_fold m [] pe with
    | error e => rw [hmf] at h; simp at h
    | ok q =>
      rcases q with ⟨a, b⟩
      rw [hmf] at h
      simp only [] at h
      injection h with h2
      injection h2 with _ h3
      injection h3 with h4 _
      rw [← h4]

lemma addMassType_ne_nil (acc : List (String × ℚ)) (ty : String) (v : ℚ) :
    addMassType acc ty v ≠ [] := by
  unfold addMassType
  split
  · cases acc with
    | nil => simp_all
    | cons p rest => simp
  · simp

lemma foldl_addMassType_ne_nil :
    ∀ (l : List (Nat × PointMass)) (acc : List (String × ℚ)), acc ≠ [] →
      l.foldl (fun acc p => addMassType acc p.2.mtype p.2.mass) acc ≠ [] := by
  intro l
  induction l with
  | nil => intro acc h; simpa
  | cons p rest ih =>
    intro acc _
    exact ih _ (addMassType_ne_nil acc p.2.mtype p.2.mass)

lemma massTypeMap_ne_nil {l : List (Nat × PointMass)} (h : l ≠ []) :
    massTypeMap l ≠ [] := by
  cases l with
  | nil => exact absurd rfl h
  | cons p rest =>
    unfold massTypeMap
    simp only [List.foldl_cons]
    exact foldl_addMassType_ne_nil rest _ (addMassType_ne_nil [] p.2.mtype p.2.mass)

/-- C9: with at least one point-mass object in the model (even of zero
Mass()), `get_mass_breakdown` never fails with the no-mass error — for
any `property_ids` filter and either `stop_if_no_eids` value — and on
success its second mapping is the one built from all of `self.masses`
(ignoring the filter), which is non-empty. -/
theorem mass_breakdown_point_mass_never_no_mass
    (m : Model) (pids : Option (List Nat)) (flag : Bool)
    (h : m.masses ≠ []) :
    get_mass_breakdown m pids flag ≠ .error .noMassFound
    ∧ ∀ p2m mt, get_mass_breakdown m pids flag = .ok (p2m, mt) →
        mt = massTypeMap m.masses ∧ mt ≠ [] := by
  have hmt : massTypeMap m.masses ≠ [] := massTypeMap_ne_nil h
  cases hcore : mass_breakdown_core m pids with
  | error e =>
    have he : e ≠ .noMassFound := by
      intro hc
      rw [hc] at hcore
      exact mass_breakdown_core_not_noMass m pids hcore
    constructor
    · simp [get_mass_breakdown, hcore, Bind.bind, Except.bind, he]
    · intro p2m mt hok
      rw [get_mass_breakdown] at hok
      simp [hcore, Bind.bind, Except.bind] at hok
  | ok q =>
    rcases q with ⟨p2m0, mt0, sk0⟩
    have hmt0 : mt0 = massTypeMap m.masses :=
      mass_breakdown_core_mt m pids p2m0 mt0 sk0 hcore
    have hempty : mt0.isEmpty = false := by
      rw [hmt0]
      cases hcm : massTypeMap m.masses with
      | nil => exact absurd hcm hmt
      | cons a b => simp
    constructor
    · simp [get_mass_breakdown, hcore, Bind.bind, Except.bind, hempty]
    · intro p2m mt hok
      rw [get_mass_breakdown] at hok
      simp [hcore, Bind.bind, Except.bind, hempty] at hok
      rcases hok with ⟨h1, h2⟩
      constructor
      · rw [← h2, hmt0]
      · rw [← h2, hmt0]; exact hmt

/-- Witness for C9 on a model whose only entity is a zero-mass CONM2. -/
theorem mass_breakdown_point_mass_never_no_mass_witness :
    mdlPM.masses ≠ []
    ∧ get_mass_breakdown mdlPM none true ≠ .error .noMassFound
    ∧ (∀ p2m mt, get_mass_breakdown mdlPM none true = .ok (p2m, mt) →
        mt = massTypeMap mdlPM.masses ∧ mt ≠ []) :=
  ⟨by decide,
   (mass_breakdown_point_mass_never_no_mass mdlPM none true (by decide)).1,
   (mass_breakdown_point_mass_never_no_mass mdlPM none true (by decide)).2⟩

lemma pidsChecked_eids (m : Model) :
    ∀ (pids : List Nat) (l : List (Nat × List Nat)), pidsChecked m pids = .ok l →
      ∀ pid eids, (pid, eids) ∈ l → eids = eidsOfPid m pid := by
  intro pids
  induction pids with
  | nil =>
    intro l h pid eids hm
    simp only [pidsChecked] at h
    cases h
    simp at hm
  | cons pid0 rest ih =>
    intro l h pid eids hm
    cases hp : alookup pid0 m.properties with
    | none => simp [pidsChecked, hp] at h
    | some prop0 =>
      cases hrest : pidsChecked m rest with
      | error e => simp [pidsChecked, hp, hrest, Bind.bind, Except.bind] at h
      | ok r =>
        simp only [pidsChecked, hp, hrest, Bind.bind, Except.bind] at h
        injection h with h2
        subst h2
        rcases List.mem_cons.mp hm with h3 | h3
        · injection h3 with h4 h5
          subst h4
          subst h5
          rfl
        · exact ih r hrest pid eids h3

lemma get_pid_eids_eids (m : Model) (sel : Option (List Nat))
    (l : List (Nat × List Nat)) (h : get_element_ids_dict_with_pids m sel = .ok l) :
    ∀ pid eids, (pid, eids) ∈ l → eids = eidsOfPid m pid := by
  unfold get_element_ids_dict_with_pids at h
  cases sel with
  | none => exact pidsChecked_eids m _ l h
  | some pids => exact pidsChecked_eids m pids l h

lemma area_fold_keys (m : Model) (sb : Bool) :
    ∀ (l : List (Nat × List Nat)) (res : List (Nat × ℚ)),
      area_fold m sb l = .ok res → ∀ pid, pid ∈ res.map Prod.fst →
      ∃ eids prop as, (pid, eids) ∈ l ∧ alookup pid m.properties = some prop
        ∧ areasForProp m pid prop eids sb = .ok as ∧ as ≠ [] := by
  intro l
  induction l with
  | nil =>
    intro res h pid hm
    simp only [area_fold] at h
    cases h
    simp at hm
  | cons pe rest ih =>
    intro res h pid hm
    rcases pe with ⟨pid0, eids0⟩
    cases hp : alookup pid0 m.properties with
    | none => simp [area_fold, hp] at h
    | some prop0 =>
      cases has : areasForProp m pid0 prop0 eids0 sb with
      | error e => simp [area_fold, hp, has, Bind.bind, Except.bind] at h
      | ok as0 =>
        cases hrest : area_fold m sb rest with
        | error e => simp [area_fold, hp, has, hrest, Bind.bind, Except.bind] at h
        | ok r =>
          simp only [area_fold, hp, has, hrest, Bind.bind, Except.bind] at h
          injection h with h2
          by_cases hemp : as0.isEmpty
          · rw [if_pos hemp] at h2
            subst h2
            rcases ih r hrest pid hm with ⟨eids, prop, as, hmem, hpp, haa, hne⟩
            exact ⟨eids, prop, as, List.mem_cons_of_mem _ hmem, hpp, haa, hne⟩
          · rw [if_neg hemp] at h2
            subst h2
            simp only [List.map_cons, List.mem_cons] at hm
            rcases hm with h3 | h3
            · subst h3
              refine ⟨eids0, prop0, as0, List.mem_cons_self _ _, hp, has, ?_⟩
              intro hc
              rw [hc] at hemp
              simp at hemp
            · rcases ih r hrest pid h3 with ⟨eids, prop, as, hmem, hpp, haa, hne⟩
              exact ⟨eids, prop, as, List.mem_cons_of_mem _ hmem, hpp, haa, hne⟩

lemma volume_fold_keys (m : Model) :
    ∀ (l : List (Nat × List Nat)) (sk : List SKey) (res : List (Nat × ℚ))
      (skF : List SKey),
      volume_fold m sk l = .ok (res, skF) → ∀ pid, pid ∈ res.map Prod.fst →
      ∃ eids prop skIn skOut vs, (pid, eids) ∈ l
        ∧ alookup pid m.properties = some prop
        ∧ volumesForProp m pid prop eids skIn = .ok (vs, skOut) ∧ vs ≠ [] := by
  intro l
  induction l with
  | nil =>
    intro sk res skF h pid hm
    simp only [volume_fold] at h
    injection h with h2
    injection h2 with h3 _
    subst h3
    simp at hm
  | cons pe rest ih =>
    intro sk res skF h pid hm
    rcases pe with ⟨pid0, eids0⟩
    cases hp : alookup pid0 m.properties with
    | none => simp [volume_fold, hp] at h
    | some prop0 =>
      cases hvs : volumesForProp m pid0 prop0 eids0 sk with
      | error e => simp [volume_fold, hp, hvs, Bind.bind, Except.bind] at h
      | ok q =>
        rcases q with ⟨vs0, sk2⟩
        cases hrest : volume_fold m sk2 rest with
        | error e => simp [volume_fold, hp, hvs, hrest, Bind.bind, Except.bind] at h
        | ok q2 =>
          rcases q2 with ⟨r, sk3⟩
          simp only [volume_fold, hp, hvs, hrest, Bind.bind, Except.bind] at h
          injection h with h2
          injection h2 with h3 h4
          subst h3
          by_cases hemp : vs0.isEmpty
          · rw [if_pos hemp] at hm
            rcases ih sk2 r sk3 hrest pid hm with
              ⟨eids, prop, skIn, skOut, vs, hmem, hpp, haa, hne⟩
            exact ⟨eids, prop, skIn, skOut, vs,
              List.mem_cons_of_mem _ hmem, hpp, haa, hne⟩
          · rw [if_neg hemp] at hm
            simp only [List.map_cons, List.mem_cons] at hm
            rcases hm with h3 | h3
            · subst h3
              refine ⟨eids0, prop0, sk, sk2, vs0, List.mem_cons_self _ _, hp, hvs, ?_⟩
              intro hc
              rw [hc] at hemp
              simp at hemp
            · rcases ih sk2 r sk3 hrest pid h3 with
                ⟨eids, prop, skIn, skOut, vs, hmem, hpp, haa, hne⟩
              exact ⟨eids, prop, skIn, skOut, vs,
                List.mem_cons_of_mem _ hmem, hpp, haa, hne⟩

lemma mass_fold_keys (m : Model) :
    ∀ (l : List (Nat × List Nat)) (sk : List SKey) (res : List (Nat × ℚ))
      (skF : List SKey),
      mass_fold m sk l = .ok (res, skF) → ∀ pid, pid ∈ res.map Prod.fst →
      ∃ eids prop skIn skOut ms, (pid, eids) ∈ l
        ∧ alookup pid m.properties = some prop
        ∧ massesForProp m pid prop eids skIn = .ok (ms, skOut) ∧ ms ≠ [] := by
  intro l
  induction l with
  | nil =>
    intro sk res skF h pid hm
    simp only [mass_fold] at h
    injection h with h2
    injection h2 with h3 _
    subst h3
    simp at hm
  | cons pe rest ih =>
    intro sk res skF h pid hm
    rcases pe with ⟨pid0, eids0⟩
    cases hp : alookup pid0 m.properties with
    | none => simp [mass_fold, hp] at h
    | some prop0 =>
      cases hvs : massesForProp m pid0 prop0 eids0 sk with
      | error e => simp [mass_fold, hp, hvs, Bind.bind, Except.bind] at h
      | ok q =>
        rcases q with ⟨ms0, sk2⟩
        cases hrest : mass_fold m sk2 rest with
        | error e => simp [mass_fold, hp, hvs, hrest, Bind.bind, Except.bind] at h
        | ok q2 =>
          rcases q2 with ⟨r, sk3⟩
          simp only [mass_fold, hp, hvs, hrest, Bind.bind, Except.bind] at h
          injection h with h2
          injection h2 with h3 h4
          subst h3
          by_cases hemp : ms0.isEmpty
          · rw [if_pos hemp] at hm
            rcases ih sk2 r sk3 hrest pid hm with
              ⟨eids, prop, skIn, skOut, ms, hmem, hpp, haa, hne⟩
            exact ⟨eids, prop, skIn, skOut, ms,
              List.mem_cons_of_mem _ hmem, hpp, haa, hne⟩
          · rw [if_neg hemp] at hm
            simp only [List.map_cons, List.mem_cons] at hm
            rcases hm with h3 | h3
            · subst h3
              refine ⟨eids0, prop0, sk, sk2, ms0, List.mem_cons_self _ _, hp, hvs, ?_⟩
              intro hc
              rw [hc] at hemp
              simp at hemp
            · rcases ih sk2 r sk3 hrest pid h3 with
                ⟨eids, prop, skIn, skOut, ms, hmem, hpp, haa, hne⟩
              exact ⟨eids, prop, skIn, skOut, ms,
                List.mem_cons_of_mem _ hmem, hpp, haa, hne⟩

lemma skip_not_shell : ∀ ty ∈ skip_props, ty ∉ shellPropTypes := by decide

lemma skip_not_line : ∀ ty ∈ skip_props, ty ∉ linePropTypes := by decide

lemma no_volume_facts :
    ∀ ty ∈ no_volume, ty ≠ "PSHELL" ∧ ty ∉ (["PCOMP", "PCOMPG"] : List String)
      ∧ ty ∉ linePropTypes ∧ ty ∉ solidPropTypes ∧ ty ≠ "PSHEAR" := by decide

lemma properties_to_skip_facts :
    ∀ ty ∈ properties_to_skip, ty ≠ "PSHELL"
      ∧ ty ∉ (["PCOMP", "PCOMPG"] : List String)
      ∧ ty ∉ linePropTypes ∧ ty ∉ solidPropTypes := by decide

lemma areasForProp_skip (m : Model) (pid : Nat) (prop : PropertyCard)
    (eids : List Nat) (sb : Bool) (h : prop.ptype ∈ skip_props) :
    areasForProp m pid prop eids sb = .ok [] := by
  have h1 := skip_not_shell _ h
  have h2 := skip_not_line _ h
  simp [areasForProp, h1, h2, h]

lemma volumesForProp_skip (m : Model) (pid : Nat) (prop : PropertyCard)
    (eids : List Nat) (sk : List SKey) (h : prop.ptype ∈ no_volume) :
    volumesForProp m pid prop eids sk = .ok ([], sk) := by
  rcases no_volume_facts _ h with ⟨h1, h2, h3, h4, h5⟩
  simp [volumesForProp, h1, h2, h3, h4, h5, h]

lemma massesForProp_skip (m : Model) (pid : Nat) (prop : PropertyCard)
    (eids : List Nat) (sk : List SKey) (h : prop.ptype ∈ properties_to_skip) :
    massesForProp m pid prop eids sk = .ok ([], sk) := by
  rcases properties_to_skip_facts _ h with ⟨h1, h2, h3, h4⟩
  simp [massesForProp, h1, h2, h3, h4, h]

/-- C7: each breakdown mapping holds a key for a property id only when
that property produced a non-empty list of summands, and in particular
every property of a zero-area/zero-volume skip category is absent from
the returned mapping. -/
theorem breakdown_keys_only_contributors :
    (∀ (m : Model) (sel : Option (List Nat)) (sb : Bool)
       (res : List (Nat × ℚ)) (pid : Nat),
       get_area_breakdown m sel sb = .ok res → pid ∈ res.map Prod.fst →
       ∃ prop as, alookup pid m.properties = some prop
         ∧ areasForProp m pid prop (eidsOfPid m pid) sb = .ok as ∧ as ≠ [])
    ∧ (∀ (m : Model) (sel : Option (List Nat)) (sb : Bool)
       (res : List (Nat × ℚ)) (pid : Nat) (prop : PropertyCard),
       get_area_breakdown m sel sb = .ok res →
       alookup pid m.properties = some prop → prop.ptype ∈ skip_props →
       pid ∉ res.map Prod.fst)
    ∧ (∀ (m : Model) (sel : Option (List Nat)) (res : List (Nat × ℚ)) (pid : Nat),
       get_volume_breakdown m sel = .ok res → pid ∈ res.map Prod.fst →
       ∃ prop skIn skOut vs, alookup pid m.properties = some prop
         ∧ volumesForProp m pid prop (eidsOfPid m pid) skIn = .ok (vs, skOut)
         ∧ vs ≠ [])
    ∧ (∀ (m : Model) (sel : Option (List Nat)) (res : List (Nat × ℚ))
       (pid : Nat) (prop : PropertyCard),
       get_volume_breakdown m sel = .ok res →
       alookup pid m.properties = some prop → prop.ptype ∈ no_volume →
       pid ∉ res.map Prod.fst)
    ∧ (∀ (m : Model) (sel : Option (List Nat)) (flag : Bool)
       (p2m : List (Nat × ℚ)) (mt : List (String × ℚ)) (pid : Nat),
       get_mass_breakdown m sel flag = .ok (p2m, mt) → pid ∈ p2m.map Prod.fst →
       ∃ prop skIn skOut ms, alookup pid m.properties = some prop
         ∧ massesForProp m pid prop (eidsOfPid m pid) skIn = .ok (ms, skOut)
         ∧ ms ≠ [])
    ∧ (∀ (m : Model) (sel : Option (List Nat)) (flag : Bool)
       (p2m : List (Nat × ℚ)) (mt : List (String × ℚ)) (pid : Nat)
       (prop : PropertyCard),
       get_mass_breakdown m sel flag = .ok (p2m, mt) →
       alookup pid m.properties = some prop → prop.ptype ∈ properties_to_skip →
       pid ∉ p2m.map Prod.fst) := by
  have harea : ∀ (m : Model) (sel : Option (List Nat)) (sb : Bool)
      (res : List (Nat × ℚ)) (pid : Nat),
      get_area_breakdown m sel sb = .ok res → pid ∈ res.map Prod.fst →
      ∃ prop as, alookup pid m.properties = some prop
        ∧ areasForProp m pid prop (eidsOfPid m pid) sb = .ok as ∧ as ≠ [] := by
    intro m sel sb res pid h hm
    rw [get_area_breakdown] at h
    cases hpe : get_element_ids_dict_with_pids m sel with
    | error e => rw [hpe] at h; simp [Bind.bind, Except.bind] at h
    | ok pe =>
      rw [hpe] at h
      simp only [Bind.bind, Except.bind] at h
      rcases area_fold_keys m sb pe res h pid hm with
        ⟨eids, prop, as, hmem, hpp, haa, hne⟩
      have heq := get_pid_eids_eids m sel pe hpe pid eids hmem
      subst heq
      exact ⟨prop, as, hpp, haa, hne⟩
  have hvol : ∀ (m : Model) (sel : Option (List Nat)) (res : List (Nat × ℚ))
      (pid : Nat),
      get_volume_breakdown m sel = .ok res → pid ∈ res.map Prod.fst →
      ∃ prop skIn skOut vs, alookup pid m.properties = some prop
        ∧ volumesForProp m pid prop (eidsOfPid m pid) skIn = .ok (vs, skOut)
        ∧ vs ≠ [] := by
    intro m sel res pid h hm
    rw [get_volume_breakdown] at h
    cases hcore : volume_breakdown_core m sel with
    | error e => rw [hcore] at h; simp [Bind.bind, Except.bind] at h
    | ok q =>
      rcases q with ⟨vols, skF⟩
      rw [hcore] at h
      simp only [Bind.bind, Except.bind] at h
      injection h with h2
      subst h2
      rw [volume_breakdown_core] at hcore
      cases hpe : get_element_ids_dict_with_pids m sel with
      | error e => rw [hpe] at hcore; simp [Bind.bind, Except.bind] at hcore
      | ok pe =>
        rw [hpe] at hcore
        simp only [Bind.bind, Except.bind] at hcore
        rcases volume_fold_keys m pe [] vols skF hcore pid hm with
          ⟨eids, prop, skIn, skOut, vs, hmem, hpp, haa, hne⟩
        have heq := get_pid_eids_eids m sel pe hpe pid eids hmem
        subst heq
        exact ⟨prop, skIn, skOut, vs, hpp, haa, hne⟩
  have hmass : ∀ (m : Model) (sel : Option (List Nat)) (flag : Bool)
      (p2m : List (Nat × ℚ)) (mt : List (String × ℚ)) (pid : Nat),
      get_mass_breakdown m sel flag = .ok (p2m, mt) → pid ∈ p2m.map Prod.fst →
      ∃ prop skIn skOut ms, alookup pid m.properties = some prop
        ∧ massesForProp m pid prop (eidsOfPid m pid) skIn = .ok (ms, skOut)
        ∧ ms ≠ [] := by
    intro m sel flag p2m mt pid h hm
    rw [get_mass_breakdown] at h
    cases hcore : mass_breakdown_core m sel with
    | error e => rw [hcore] at h; simp [Bind.bind, Except.bind] at h
    | ok q =>
      rcases q with ⟨p2m0, mt0, sk0⟩
      rw [hcore] at h
      simp only [Bind.bind, Except.bind] at h
      have hp2m : p2m0 = p2m := by
        by_cases hc : (flag && mt0.isEmpty && p2m0.isEmpty) = true
        · rw [if_pos hc] at h; cases h
        · rw [if_neg hc] at h
          injection h with h2
          injection h2 with h3 h4
      subst hp2m
      rw [mass_breakdown_core] at hcore
      cases hpe : get_element_ids_dict_with_pids m sel with
      | error e => rw [hpe] at hcore; simp [Bind.bind, Except.bind] at hcore
      | ok pe =>
        rw [hpe] at hcore
        simp only [Bind.bind, Except.bind] at hcore
        cases hmf : mass_fold m [] pe with
        | error e => rw [hmf] at hcore; simp at hcore
        | ok q2 =>
          rcases q2 with ⟨p2mf, skf⟩
          rw [hmf] at hcore
          simp only [] at hcore
          injection hcore with h2
          injection h2 with h3 _
          subst h3
          rcases mass_fold_keys m pe [] p2mf skf hmf pid hm with
            ⟨eids, prop, skIn, skOut, ms, hmem, hpp, haa, hne⟩
          have heq := get_pid_eids_eids m sel pe hpe pid eids hmem
          subst heq
          exact ⟨prop, skIn, skOut, ms, hpp, haa, hne⟩
  refine ⟨harea, ?_, hvol, ?_, hmass, ?_⟩
  · intro m sel sb res pid prop h hpp hskip hm
    rcases harea m sel sb res pid h hm with ⟨prop2, as, hpp2, haa, hne⟩
    rw [hpp] at hpp2
    injection hpp2 with h2
    subst h2
    rw [areasForProp_skip m pid prop _ sb hskip] at haa
    injection haa with h3
    exact hne h3.symm
  · intro m sel res pid prop h hpp hskip hm
    rcases hvol m sel res pid h hm with ⟨prop2, skIn, skOut, vs, hpp2, haa, hne⟩
    rw [hpp] at hpp2
    injection hpp2 with h2
    subst h2
    rw [volumesForProp_skip m pid prop _ skIn hskip] at haa
    injection haa with h3
    injection h3 with h4 _
    exact hne h4.symm
  · intro m sel flag p2m mt pid prop h hpp hskip hm
    rcases hmass m sel flag p2m mt pid h hm with
      ⟨prop2, skIn, skOut, ms, hpp2, haa, hne⟩
    rw [hpp] at hpp2
    injection hpp2 with h2
    subst h2
    rw [massesForProp_skip m pid prop _ skIn hskip] at haa
    injection haa with h3
    injection h3 with h4 _
    exact hne h4.symm

/-- Witness for C7 on a PSHELL region next to a PELAS region: the PSHELL
id 1 appears with a non-empty contribution; the PELAS id 2 is absent from
all three mappings. -/
theorem breakdown_keys_only_contributors_witness :
    (∃ prop as, alookup 1 mdlMix.properties = some prop
      ∧ areasForProp mdlMix 1 prop (eidsOfPid mdlMix 1) true = .ok as ∧ as ≠ [])
    ∧ (2 : Nat) ∉ ([(1, (4 : ℚ))].map Prod.fst)
    ∧ (∃ prop skIn skOut vs, alookup 1 mdlMix.properties = some prop
      ∧ volumesForProp mdlMix 1 prop (eidsOfPid mdlMix 1) skIn = .ok (vs, skOut)
      ∧ vs ≠ [])
    ∧ (2 : Nat) ∉ ([(1, (12 : ℚ))].map Prod.fst)
    ∧ (∃ prop skIn skOut ms, alookup 1 mdlMix.properties = some prop
      ∧ massesForProp mdlMix 1 prop (eidsOfPid mdlMix 1) skIn = .ok (ms, skOut)
      ∧ ms ≠ [])
    ∧ (2 : Nat) ∉ ([(1, (28 : ℚ))].map Prod.fst) := by
  have hpel : alookup 2 mdlMix.properties = some ⟨"PELAS", 0, 0, none, 0, 0⟩ := by
    decide
  have ha : get_area_breakdown mdlMix none true = .ok [(1, 4)] := by
    simp [get_area_breakdown, get_element_ids_dict_with_pids, pidsChecked,
      mdlMix, alookup, eidsOfPid, area_fold, areasForProp, shellAreas, getElem,
      elemArea, Bind.bind, Except.bind, shellPropTypes, linePropTypes, skip_props]
  have hv : get_volume_breakdown mdlMix none = .ok [(1, 12)] := by
    simp [get_volume_breakdown, volume_breakdown_core,
      get_element_ids_dict_with_pids, pidsChecked, mdlMix, alookup, eidsOfPid,
      volume_fold, volumesForProp, shellAreas, getElem, elemArea, Bind.bind,
      Except.bind, linePropTypes, solidPropTypes, no_volume]
    norm_num
  have hm : get_mass_breakdown mdlMix none true = .ok ([(1, 28)], []) := by
    simp [get_mass_breakdown, mass_breakdown_core, get_element_ids_dict_with_pids,
      pidsChecked, mdlMix, alookup, eidsOfPid, massTypeMap, mass_fold,
      massesForProp, shellAreas, getElem, elemArea, propRho, Bind.bind,
      Except.bind, linePropTypes, solidPropTypes, properties_to_skip]
    norm_num
  refine ⟨?_, ?_, ?_, ?_, ?_, ?_⟩
  · exact breakdown_keys_only_contributors.1 mdlMix none true [(1, 4)] 1 ha
      (by decide)
  · exact breakdown_keys_only_contributors.2.1 mdlMix none true [(1, 4)] 2
      ⟨"PELAS", 0, 0, none, 0, 0⟩ ha hpel (by decide)
  · exact breakdown_keys_only_contributors.2.2.1 mdlMix none [(1, 12)] 1 hv
      (by decide)
  · exact breakdown_keys_only_contributors.2.2.2.1 mdlMix none [(1, 12)] 2
      ⟨"PELAS", 0, 0, none, 0, 0⟩ hv hpel (by decide)
  · exact breakdown_keys_only_contributors.2.2.2.2.1 mdlMix none true [(1, 28)] []
      1 hm (by decide)
  · exact breakdown_keys_only_contributors.2.2.2.2.2 mdlMix none true [(1, 28)] []
      2 ⟨"PELAS", 0, 0, none, 0, 0⟩ hm hpel (by decide)

/-- The computed-values component of a solid-branch result, forgetting
the skip-set state. -/
def fstOf (r : Except Err (List ℚ × List SKey)) : Except Err (List ℚ) :=
  r.map Prod.fst

lemma solidVolumes_fst_sk (m : Model) (pt : String) :
    ∀ (l : List Nat) (sk sk' : List SKey),
      fstOf (solidVolumes m pt sk l) = fstOf (solidVolumes m pt sk' l) := by
  intro l
  induction l with
  | nil => intro sk sk'; simp [solidVolumes, fstOf, Except.map]
  | cons eid rest ih =>
    intro sk sk'
    cases hge : getElem m eid with
    | error e => simp [solidVolumes, Bind.bind, Except.bind, hge, fstOf, Except.map]
    | ok e =>
      by_cases hty : e.etype ∈ solidElemTypes
      · cases hev : elemVolume e with
        | error e2 =>
          simp [solidVolumes, Bind.bind, Except.bind, hge, hty, hev, fstOf,
            Except.map]
        | ok v =>
          have ihr := ih sk sk'
          cases hr1 : solidVolumes m pt sk rest with
          | error e1 =>
            cases hr2 : solidVolumes m pt sk' rest with
            | error e2b =>
              rw [hr1, hr2] at ihr
              simp [fstOf, Except.map] at ihr
              subst ihr
              simp [solidVolumes, Bind.bind, Except.bind, hge, hty, hev, hr1, hr2,
                fstOf, Except.map]
            | ok q =>
              rw [hr1, hr2] at ihr
              simp [fstOf, Except.map] at ihr
          | ok q1 =>
            cases hr2 : solidVolumes m pt sk' rest with
            | error e2b =>
              rw [hr1, hr2] at ihr
              simp [fstOf, Except.map] at ihr
            | ok q2 =>
              rcases q1 with ⟨vs1, ska⟩
              rcases q2 with ⟨vs2, skb⟩
              rw [hr1, hr2] at ihr
              simp only [fstOf, Except.map] at ihr
              injection ihr with h2
              simp only [solidVolumes, Bind.bind, Except.bind, hge, hty, if_pos,
                hev, hr1, hr2, fstOf, Except.map]
              rw [h2]
      · simp only [solidVolumes, Bind.bind, Except.bind, hge, hty, if_neg,
          ite_false]
        exact ih _ _

lemma solidVolumes_skip (m : Model) (pt : String) (beid : Nat) (e : Element)
    (hg : getElem m beid = .ok e) (hb : e.etype ∉ solidElemTypes) :
    ∀ (l1 l2 : List Nat) (sk : List SKey),
      fstOf (solidVolumes m pt sk (l1 ++ beid :: l2))
        = fstOf (solidVolumes m pt sk (l1 ++ l2)) := by
  intro l1
  induction l1 with
  | nil =>
    intro l2 sk
    simp only [List.nil_append]
    have hstep : solidVolumes m pt sk (beid :: l2)
        = solidVolumes m pt
            (if (e.etype, pt) ∈ sk then sk else sk ++ [(e.etype, pt)]) l2 := by
      simp [solidVolumes, Bind.bind, Except.bind, hg, hb]
    rw [hstep]
    exact solidVolumes_fst_sk m pt l2 _ sk
  | cons a l1 ih =>
    intro l2 sk
    simp only [List.cons_append]
    cases hge : getElem m a with
    | error e2 => simp [solidVolumes, Bind.bind, Except.bind, hge]
    | ok e2 =>
      by_cases hty : e2.etype ∈ solidElemTypes
      · cases hev : elemVolume e2 with
        | error e3 =>
          simp [solidVolumes, Bind.bind, Except.bind, hge, hty, hev]
        | ok v =>
          have ihr := ih l2 sk
          cases hr1 : solidVolumes m pt sk (l1 ++ beid :: l2) with
          | error e1 =>
            cases hr2 : solidVolumes m pt sk (l1 ++ l2) with
            | error e2b =>
              rw [hr1, hr2] at ihr
              simp [fstOf, Except.map] at ihr
              subst ihr
              simp [solidVolumes, Bind.bind, Except.bind, hge, hty, hev, hr1, hr2]
            | ok q =>
              rw [hr1, hr2] at ihr
              simp [fstOf, Except.map] at ihr
          | ok q1 =>
            cases hr2 : solidVolumes m pt sk (l1 ++ l2) with
            | error e2b =>
              rw [hr1, hr2] at ihr
              simp [fstOf, Except.map] at ihr
            | ok q2 =>
              rcases q1 with ⟨vs1, ska⟩
              rcases q2 with ⟨vs2, skb⟩
              rw [hr1, hr2] at ihr
              simp only [fstOf, Except.map] at ihr
              injection ihr with h2
              simp only [solidVolumes, Bind.bind, Except.bind, hge, hty, if_pos,
                hev, hr1, hr2, fstOf, Except.map]
              rw [h2]
      · simp only [solidVolumes, Bind.bind, Except.bind, hge, hty, if_neg,
          ite_false]
        rw [ih l2 _]

lemma solidMasses_fst_sk (m : Model) (rho : ℚ) (pt : String) :
    ∀ (l : List Nat) (sk sk' : List SKey),
      fstOf (solidMasses m rho pt sk l) = fstOf (solidMasses m rho pt sk' l) := by
  intro l
  induction l with
  | nil => intro sk sk'; simp [solidMasses, fstOf, Except.map]
  | cons eid rest ih =>
    intro sk sk'
    cases hge : getElem m eid with
    | error e => simp [solidMasses, Bind.bind, Except.bind, hge, fstOf, Except.map]
    | ok e =>
      by_cases hty : e.etype ∈ solidElemTypes
      · cases hev : elemVolume e with
        | error e2 =>
          simp [solidMasses, Bind.bind, Except.bind, hge, hty, hev, fstOf,
            Except.map]
        | ok v =>
          have ihr := ih sk sk'
          cases hr1 : solidMasses m rho pt sk rest with
          | error e1 =>
            cases hr2 : solidMasses m rho pt sk' rest with
            | error e2b =>
              rw [hr1, hr2] at ihr
              simp [fstOf, Except.map] at ihr
              subst ihr
              simp [solidMasses, Bind.bind, Except.bind, hge, hty, hev, hr1, hr2,
                fstOf, Except.map]
            | ok q =>
              rw [hr1, hr2] at ihr
              simp [fstOf, Except.map] at ihr
          | ok q1 =>
            cases hr2 : solidMasses m rho pt sk' rest with
            | error e2b =>
              rw [hr1, hr2] at ihr
              simp [fstOf, Except.map] at ihr
            | ok q2 =>
              rcases q1 with ⟨vs1, ska⟩
              rcases q2 with ⟨vs2, skb⟩
              rw [hr1, hr2] at ihr
              simp only [fstOf, Except.map] at ihr
              injection ihr with h2
              simp only [solidMasses, Bind.bind, Except.bind, hge, hty, if_pos,
                hev, hr1, hr2, fstOf, Except.map]
              rw [h2]
      · simp only [solidMasses, Bind.bind, Except.bind, hge, hty, if_neg,
          ite_false]
        exact ih _ _

lemma solidMasses_skip (m : Model) (rho : ℚ) (pt : String) (beid : Nat)
    (e : Element) (hg : getElem m beid = .ok e) (hb : e.etype ∉ solidElemTypes) :
    ∀ (l1 l2 : List Nat) (sk : List SKey),
      fstOf (solidMasses m rho pt sk (l1 ++ beid :: l2))
        = fstOf (solidMasses m rho pt sk (l1 ++ l2)) := by
  intro l1
  induction l1 with
  | nil =>
    intro l2 sk
    simp only [List.nil_append]
    have hstep : solidMasses m rho pt sk (beid :: l2)
        = solidMasses m rho pt
            (if (e.etype, pt) ∈ sk then sk else sk ++ [(e.etype, pt)]) l2 := by
      simp [solidMasses, Bind.bind, Except.bind, hg, hb]
    rw [hstep]
    exact solidMasses_fst_sk m rho pt l2 _ sk
  | cons a l1 ih =>
    intro l2 sk
    simp only [List.cons_append]
    cases hge : getElem m a with
    | error e2 => simp [solidMasses, Bind.bind, Except.bind, hge]
    | ok e2 =>
      by_cases hty : e2.etype ∈ solidElemTypes
      · cases hev : elemVolume e2 with
        | error e3 =>
          simp [solidMasses, Bind.bind, Except.bind, hge, hty, hev]
        | ok v =>
          have ihr := ih l2 sk
          cases hr1 : solidMasses m rho pt sk (l1 ++ beid :: l2) with
          | error e1 =>
            cases hr2 : solidMasses m rho pt sk (l1 ++ l2) with
            | error e2b =>
              rw [hr1, hr2] at ihr
              simp [fstOf, Except.map] at ihr
              subst ihr
              simp [solidMasses, Bind.bind, Except.bind, hge, hty, hev, hr1, hr2]
            | ok q =>
              rw [hr1, hr2] at ihr
              simp [fstOf, Except.map] at ihr
          | ok q1 =>
            cases hr2 : solidMasses m rho pt sk (l1 ++ l2) with
            | error e2b =>
              rw [hr1, hr2] at ihr
              simp [fstOf, Except.map] at ihr
            | ok q2 =>
              rcases q1 with ⟨vs1, ska⟩
              rcases q2 with ⟨vs2, skb⟩
              rw [hr1, hr2] at ihr
              simp only [fstOf, Except.map] at ihr
              injection ihr with h2
              simp only [solidMasses, Bind.bind, Except.bind, hge, hty, if_pos,
                hev, hr1, hr2, fstOf, Except.map]
              rw [h2]
      · simp only [solidMasses, Bind.bind, Except.bind, hge, hty, if_neg,
          ite_false]
        rw [ih l2 _]

lemma nodup_append_key {sk : List SKey} {k : SKey} (hnd : sk.Nodup)
    (hk : k ∉ sk) : (sk ++ [k]).Nodup := by
  rw [List.nodup_append]
  exact ⟨hnd, List.nodup_singleton _, by simpa [List.disjoint_singleton] using hk⟩

lemma solidVolumes_nodup (m : Model) (pt : String) :
    ∀ (l : List Nat) (sk : List SKey) (vs : List ℚ) (sk' : List SKey),
      solidVolumes m pt sk l = .ok (vs, sk') → sk.Nodup → sk'.Nodup := by
  intro l
  induction l with
  | nil =>
    intro sk vs sk' h hnd
    simp only [solidVolumes] at h
    injection h with h2
    injection h2 with _ h3
    subst h3
    exact hnd
  | cons eid rest ih =>
    intro sk vs sk' h hnd
    cases hge : getElem m eid with
    | error e => simp [solidVolumes, Bind.bind, Except.bind, hge] at h
    | ok e =>
      by_cases hty : e.etype ∈ solidElemTypes
      · cases hev : elemVolume e with
        | error e2 =>
          simp [solidVolumes, Bind.bind, Except.bind, hge, hty, hev] at h
        | ok v =>
          cases hr : solidVolumes m pt sk rest with
          | error e1 =>
            simp [solidVolumes, Bind.bind, Except.bind, hge, hty, hev, hr] at h
          | ok q =>
            rcases q with ⟨vs0, sk2⟩
            simp only [solidVolumes, Bind.bind, Except.bind, hge, hty, if_pos,
              hev, hr] at h
            injection h with h2
            injection h2 with _ h3
            subst h3
            exact ih sk vs0 sk2 hr hnd
      · simp only [solidVolumes, Bind.bind, Except.bind, hge, hty, if_neg,
          ite_false] at h
        by_cases hk : (e.etype, pt) ∈ sk
        · rw [if_pos hk] at h
          exact ih _ _ _ h hnd
        · rw [if_neg hk] at h
          exact ih _ _ _ h (nodup_append_key hnd hk)

lemma solidMasses_nodup (m : Model) (rho : ℚ) (pt : String) :
    ∀ (l : List Nat) (sk : List SKey) (vs : List ℚ) (sk' : List SKey),
      solidMasses m rho pt sk l = .ok (vs, sk') → sk.Nodup → sk'.Nodup := by
  intro l
  induction l with
  | nil =>
    intro sk vs sk' h hnd
    simp only [solidMasses] at h
    injection h with h2
    injection h2 with _ h3
    subst h3
    exact hnd
  | cons eid rest ih =>
    intro sk vs sk' h hnd
    cases hge : getElem m eid with
    | error e => simp [solidMasses, Bind.bind, Except.bind, hge] at h
    | ok e =>
      by_cases hty : e.etype ∈ solidElemTypes
      · cases hev : elemVolume e with
        | error e2 =>
          simp [solidMasses, Bind.bind, Except.bind, hge, hty, hev] at h
        | ok v =>
          cases hr : solidMasses m rho pt sk rest with
          | error e1 =>
            simp [solidMasses, Bind.bind, Except.bind, hge, hty, hev, hr] at h
          | ok q =>
            rcases q with ⟨vs0, sk2⟩
            simp only [solidMasses, Bind.bind, Except.bind, hge, hty, if_pos,
              hev, hr] at h
            injection h with h2
            injection h2 with _ h3
            subst h3
            exact ih sk vs0 sk2 hr hnd
      · simp only [solidMasses, Bind.bind, Except.bind, hge, hty, if_neg,
          ite_false] at h
        by_cases hk : (e.etype, pt) ∈ sk
        · rw [if_pos hk] at h
          exact ih _ _ _ h hnd
        · rw [if_neg hk] at h
          exact ih _ _ _ h (nodup_append_key hnd hk)

lemma bind_pair_sk {α : Type} {x : Except Err α}
    {g : α → List ℚ} {sk : List SKey} {vs : List ℚ} {sk' : List SKey}
    (h : (x.bind fun a => .ok (g a, sk)) = .ok (vs, sk')) : sk' = sk := by
  cases x with
  | error e => simp [Except.bind] at h
  | ok a =>
    simp only [Except.bind] at h
    injection h with h2
    injection h2 with _ h3
    exact h3.symm

lemma volumesForProp_nodup (m : Model) (pid : Nat) (prop : PropertyCard)
    (eids : List Nat) (sk : List SKey) (vs : List ℚ) (sk' : List SKey)
    (h : volumesForProp m pid prop eids sk = .ok (vs, sk')) (hnd : sk.Nodup) :
    sk'.Nodup := by
  unfold volumesForProp at h
  split at h
  · rw [bind_pair_sk h]; exact hnd
  · split at h
    · rw [bind_pair_sk h]; exact hnd
    · split at h
      · rw [bind_pair_sk h]; exact hnd
      · split at h
        · exact solidVolumes_nodup m prop.ptype eids sk vs sk' h hnd
        · split at h
          · rw [bind_pair_sk h]; exact hnd
          · split at h
            · injection h with h2
              injection h2 with _ h3
              subst h3
              exact hnd
            · cases h

lemma massesForProp_nodup (m : Model) (pid : Nat) (prop : PropertyCard)
    (eids : List Nat) (sk : List SKey) (vs : List ℚ) (sk' : List SKey)
    (h : massesForProp m pid prop eids sk = .ok (vs, sk')) (hnd : sk.Nodup) :
    sk'.Nodup := by
  unfold massesForProp at h
  split at h
  · cases hr : propRho prop with
    | error e => rw [hr] at h; simp [Bind.bind, Except.bind] at h
    | ok r =>
      rw [hr] at h
      simp only [Bind.bind, Except.bind] at h
      rw [bind_pair_sk h]
      exact hnd
  · split at h
    · simp only [Bind.bind, Except.bind] at h
      rw [bind_pair_sk h]
      exact hnd
    · split at h
      · cases hr : propRho prop with
        | error e => rw [hr] at h; simp [Bind.bind, Except.bind] at h
        | ok r =>
          rw [hr] at h
          simp only [Bind.bind, Except.bind] at h
          rw [bind_pair_sk h]
          exact hnd
      · split at h
        · cases hr : propRho prop with
          | error e => rw [hr] at h; simp [Bind.bind, Except.bind] at h
          | ok r =>
            rw [hr] at h
            simp only [Bind.bind, Except.bind] at h
            exact solidMasses_nodup m r prop.ptype eids sk vs sk' h hnd
        · split at h
          · injection h with h2
            injection h2 with _ h3
            subst h3
            exact hnd
          · split at h
            · cases hr : propRho prop with
              | error e => rw [hr] at h; simp [Bind.bind, Except.bind] at h
              | ok r =>
                rw [hr] at h
                simp only [Bind.bind, Except.bind] at h
                rw [bind_pair_sk h]
                exact hnd
            · cases h

lemma volume_fold_nodup (m : Model) :
    ∀ (l : List (Nat × List Nat)) (sk : List SKey) (res : List (Nat × ℚ))
      (skF : List SKey),
      volume_fold m sk l = .ok (res, skF) → sk.Nodup → skF.Nodup := by
  intro l
  induction l with
  | nil =>
    intro sk res skF h hnd
    simp only [volume_fold] at h
    injection h with h2
    injection h2 with _ h3
    subst h3
    exact hnd
  | cons pe rest ih =>
    intro sk res skF h hnd
    rcases pe with ⟨pid0, eids0⟩
    cases hp : alookup pid0 m.properties with
    | none => simp [volume_fold, hp] at h
    | some prop0 =>
      cases hvs : volumesForProp m pid0 prop0 eids0 sk with
      | error e => simp [volume_fold, hp, hvs, Bind.bind, Except.bind] at h
      | ok q =>
        rcases q with ⟨vs0, sk2⟩
        cases hrest : volume_fold m sk2 rest with
        | error e => simp [volume_fold, hp, hvs, hrest, Bind.bind, Except.bind] at h
        | ok q2 =>
          rcases q2 with ⟨r, sk3⟩
          simp only [volume_fold, hp, hvs, hrest, Bind.bind, Except.bind] at h
          injection h with h2
          injection h2 with _ h3
          subst h3
          exact ih sk2 r sk3 hrest
            (volumesForProp_nodup m pid0 prop0 eids0 sk vs0 sk2 hvs hnd)

lemma mass_fold_nodup (m : Model) :
    ∀ (l : List (Nat × List Nat)) (sk : List SKey) (res : List (Nat × ℚ))
      (skF : List SKey),
      mass_fold m sk l = .ok (res, skF) → sk.Nodup → skF.Nodup := by
  intro l
  induction l with
  | nil =>
    intro sk res skF h hnd
    simp only [mass_fold] at h
    injection h with h2
    injection h2 with _ h3
    subst h3
    exact hnd
  | cons pe rest ih =>
    intro sk res skF h hnd
    rcases pe with ⟨pid0, eids0⟩
    cases hp : alookup pid0 m.properties with
    | none => simp [mass_fold, hp] at h
    | some prop0 =>
      cases hvs : massesForProp m pid0 prop0 eids0 sk with
      | error e => simp [mass_fold, hp, hvs, Bind.bind, Except.bind] at h
      | ok q =>
        rcases q with ⟨ms0, sk2⟩
        cases hrest : mass_fold m sk2 rest with
        | error e => simp [mass_fold, hp, hvs, hrest, Bind.bind, Except.bind] at h
        | ok q2 =>
          rcases q2 with ⟨r, sk3⟩
          simp only [mass_fold, hp, hvs, hrest, Bind.bind, Except.bind] at h
          injection h with h2
          injection h2 with _ h3
          subst h3
          exact ih sk2 r sk3 hrest
            (massesForProp_nodup m pid0 prop0 eids0 sk ms0 sk2 hvs hnd)

/-- C4: under a solid-like property, an element whose type is not
CTETRA/CPENTA/CHEXA is skipped — removing it from the element list
changes neither the computed volume nor the computed mass lists (and
raises no error) — and in a whole breakdown call the skip-log holds each
`(element_type, property_type)` key at most once. -/
theorem solid_skip_and_log_once :
    (∀ (m : Model) (pt : String) (beid : Nat) (e : Element) (l1 l2 : List Nat)
       (sk : List SKey), getElem m beid = .ok e → e.etype ∉ solidElemTypes →
       fstOf (solidVolumes m pt sk (l1 ++ beid :: l2))
         = fstOf (solidVolumes m pt sk (l1 ++ l2)))
    ∧ (∀ (m : Model) (rho : ℚ) (pt : String) (beid : Nat) (e : Element)
       (l1 l2 : List Nat) (sk : List SKey),
       getElem m beid = .ok e → e.etype ∉ solidElemTypes →
       fstOf (solidMasses m rho pt sk (l1 ++ beid :: l2))
         = fstOf (solidMasses m rho pt sk (l1 ++ l2)))
    ∧ (∀ (m : Model) (sel : Option (List Nat)) (res : List (Nat × ℚ))
       (log : List SKey),
       volume_breakdown_core m sel = .ok (res, log) → log.Nodup)
    ∧ (∀ (m : Model) (sel : Option (List Nat)) (p2m : List (Nat × ℚ))
       (mt : List (String × ℚ)) (log : List SKey),
       mass_breakdown_core m sel = .ok (p2m, mt, log) → log.Nodup) := by
  refine ⟨?_, ?_, ?_, ?_⟩
  · intro m pt beid e l1 l2 sk hg hb
    exact solidVolumes_skip m pt beid e hg hb l1 l2 sk
  · intro m rho pt beid e l1 l2 sk hg hb
    exact solidMasses_skip m rho pt beid e hg hb l1 l2 sk
  · intro m sel res log h
    rw [volume_breakdown_core] at h
    cases hpe : get_element_ids_dict_with_pids m sel with
    | error e => rw [hpe] at h; simp [Bind.bind, Except.bind] at h
    | ok pe =>
      rw [hpe] at h
      simp only [Bind.bind, Except.bind] at h
      exact volume_fold_nodup m pe [] res log h List.nodup_nil
  · intro m sel p2m mt log h
    rw [mass_breakdown_core] at h
    cases hpe : get_element_ids_dict_with_pids m sel with
    | error e => rw [hpe] at h; simp [Bind.bind, Except.bind] at h
    | ok pe =>
      rw [hpe] at h
      simp only [Bind.bind, Except.bind] at h
      cases hmf : mass_fold m [] pe with
      | error e => rw [hmf] at h; simp at h
      | ok q =>
        rcases q with ⟨p2mf, skf⟩
        rw [hmf] at h
        simp only [] at h
        injection h with h2
        injection h2 with _ h3
        injection h3 with _ h4
        subst h4
        exact mass_fold_nodup m pe [] p2mf skf hmf List.nodup_nil

/-- Witness for C4 on the PSOLID region with a CTETRA and two CPYRAM
elements. -/
theorem solid_skip_and_log_once_witness :
    (getElem mdlSolid 11 = .ok ⟨"CPYRAM", 1, none, some 9, none, none, []⟩
      ∧ "CPYRAM" ∉ solidElemTypes)
    ∧ fstOf (solidVolumes mdlSolid "PSOLID" [] ([10] ++ 11 :: [12]))
        = fstOf (solidVolumes mdlSolid "PSOLID" [] ([10] ++ [12]))
    ∧ fstOf (solidMasses mdlSolid 2 "PSOLID" [] ([10] ++ 11 :: [12]))
        = fstOf (solidMasses mdlSolid 2 "PSOLID" [] ([10] ++ [12]))
    ∧ ([("CPYRAM", "PSOLID")] : List SKey).Nodup := by
  have hcore : volume_breakdown_core mdlSolid none
      = .ok ([(1, 6)], [("CPYRAM", "PSOLID")]) := by
    simp [volume_breakdown_core, get_element_ids_dict_with_pids, pidsChecked,
      mdlSolid, alookup, eidsOfPid, volume_fold, volumesForProp, solidVolumes,
      getElem, elemVolume, Bind.bind, Except.bind, linePropTypes, solidPropTypes,
      solidElemTypes, no_volume]
  exact ⟨⟨by decide, by decide⟩,
    solid_skip_and_log_once.1 mdlSolid "PSOLID" 11
      ⟨"CPYRAM", 1, none, some 9, none, none, []⟩ [10] [12] [] (by decide)
      (by decide),
    solid_skip_and_log_once.2.1 mdlSolid 2 "PSOLID" 11
      ⟨"CPYRAM", 1, none, some 9, none, none, []⟩ [10] [12] [] (by decide)
      (by decide),
    solid_skip_and_log_once.2.2.1 mdlSolid none [(1, 6)] [("CPYRAM", "PSOLID")]
      hcore⟩

lemma nodePositions_eq (m : Model)
    (h : ∀ p ∈ m.nodes, resolvePosition m p.2 = .ok p.2.position) :
    ∀ nids : List Nat,
      nodePositions m (fun n => .ok n.position) nids
        = nodePositions m (resolvePosition m) nids := by
  intro nids
  induction nids with
  | nil => rfl
  | cons nid rest ih =>
    cases hl : alookup nid m.nodes with
    | none => simp [nodePositions, hl]
    | some node =>
      have hres : resolvePosition m node = .ok node.position :=
        h (nid, node) (alookup_mem hl)
      simp [nodePositions, hl, hres, ih, Bind.bind, Except.bind]

lemma elemCentroid_eq (m : Model)
    (h : ∀ p ∈ m.nodes, resolvePosition m p.2 = .ok p.2.position) (e : Element) :
    elemCentroid m (fun n => .ok n.position) e
      = elemCentroid m (resolvePosition m) e := by
  unfold elemCentroid
  rw [nodePositions_eq m h]

lemma elemsSums_eq (m : Model)
    (h : ∀ p ∈ m.nodes, resolvePosition m p.2 = .ok p.2.position) :
    ∀ (elems : List Element) (s : Sums),
      elemsSums m (fun n => .ok n.position) s elems
        = elemsSums m (resolvePosition m) s elems := by
  intro elems
  induction elems with
  | nil => intro s; rfl
  | cons e rest ih =>
    intro s
    cases hm : elemMass e with
    | error er => simp [elemsSums, hm, Bind.bind, Except.bind]
    | ok mv =>
      cases hc : elemCentroid m (fun n => .ok n.position) e with
      | error er =>
        have hc2 := (elemCentroid_eq m h e).symm.trans hc
        simp [elemsSums, hm, hc, hc2, Bind.bind, Except.bind]
      | ok c =>
        have hc2 := (elemCentroid_eq m h e).symm.trans hc
        simp [elemsSums, hm, hc, hc2, Bind.bind, Except.bind, ih]

/-- C6: for a resolved model state — every node's precomputed global
position agrees with the position obtained by transforming its local
coordinates through its coordinate system — `mass_properties` and
`mass_properties_no_xref` return identical results for all arguments. -/
theorem mass_properties_variants_agree
    (m : Model)
    (h : ∀ p ∈ m.nodes, resolvePosition m p.2 = .ok p.2.position)
    (eids mids : Option (List Nat)) (ref : RefPoint) (sym : List Axis)
    (scale : Option ℚ) :
    mass_properties m eids mids ref sym scale
      = mass_properties_no_xref m eids mids ref sym scale := by
  unfold mass_properties mass_properties_no_xref
  unfold mass_properties_core mass_properties_no_xref_core massPropEngine
  simp only [elemsSums_eq m h]

/-- Witness for C6 on a resolved one-node, one-element model. -/
theorem mass_properties_variants_agree_witness :
    (∀ p ∈ mdlNode.nodes, resolvePosition mdlNode p.2 = .ok p.2.position)
    ∧ mass_properties mdlNode none none RefPoint.noRef [] none
        = mass_properties_no_xref mdlNode none none RefPoint.noRef [] none := by
  have hres : ∀ p ∈ mdlNode.nodes, resolvePosition mdlNode p.2 = .ok p.2.position := by
    intro p hp
    simp only [mdlNode, List.mem_singleton] at hp
    subst hp
    simp only [resolvePosition, mdlNode, alookup, coordId, vadd, vsmul]
    norm_num
  exact ⟨hres,
    mass_properties_variants_agree mdlNode hres none none RefPoint.noRef [] none⟩

end PyNastran
